import Mathlib

/-!
# HTML5AudioSound: handle pool, delayed start and gesture-lock queue

A shallow embedding of `src/sound/html5/HTML5AudioSound.js`.

* JavaScript numbers are rationals (`ℚ`): positions are seconds, clock readings are
  milliseconds. Rounding, `NaN` and infinities are not represented.
* Objects live in two stores indexed by natural numbers: the HTML audio elements
  (`World.audioTags`) and the sound objects (`World.sounds`). A JavaScript reference is an
  index; `null`/`undefined` is `none`.
* A call that would raise a `TypeError` (a property read on `null` or `undefined`) returns
  `none`. Every other call returns `some` of the new world and of its result.
* `window.performance.now()` is an explicit argument `now` of every method that reads it.
* The base class `BaseSound`, the sound manager and the event emitter are not part of the
  source file; the definitions that stand for them say so in their doc comment.
-/

namespace HTML5Audio

/-! ## Data model -/

/-- The fields of an `HTMLAudioElement` that the sound object reads or writes.
`used` stands for `dataset.used === 'true'`. -/
structure AudioTag where
  used : Bool
  paused : Bool
  currentTime : ℚ
  duration : ℚ
  muted : Bool
  volume : ℚ
  playbackRate : ℚ
  loop : Bool
deriving DecidableEq, Repr

/-- The shared configuration fields (`currentConfig`). -/
structure SoundConfig where
  mute : Bool
  volume : ℚ
  rate : ℚ
  detune : ℚ
  seek : ℚ
  loop : Bool
  delay : ℚ
deriving DecidableEq, Repr

/-- A marker: a named sub-range of the asset. -/
structure SoundMarker where
  name : String
  start : ℚ
  duration : ℚ
deriving DecidableEq, Repr

/-- A value carried by a queued action or by a notification. -/
inductive Value where
  | undefined
  | bool (b : Bool)
  | num (q : ℚ)
  | playArgs (markerName : String) (config : SoundConfig)
deriving DecidableEq, Repr

/-- An entry of `touchLockedActionQueue`. -/
structure Action where
  sound : Nat
  type : String
  name : String
  value : Value
  time : ℚ
deriving DecidableEq, Repr

/-- A notification passed to `emit`. -/
structure Emitted where
  name : String
  sound : Nat
  value : Value
deriving DecidableEq, Repr

/-- The fields of the sound manager that the sound object reads. `sounds` is the
manager's registry, in registration order. -/
structure SoundManager where
  touchLocked : Bool
  override : Bool
  audioPlayDelay : ℚ
  loopEndOffset : ℚ
  mute : Bool
  volume : ℚ
  rate : ℚ
  sounds : List Nat
deriving DecidableEq, Repr

/-- A sound object. `manager` tells whether `this.manager` refers to the manager
(`false`: `undefined` or `null`). -/
structure Sound where
  manager : Bool
  key : String
  tags : Option (List Nat)
  audio : Option Nat
  startTime : ℚ
  previousTime : ℚ
  touchLockedActionQueue : Option (List Action)
  duration : ℚ
  totalDuration : ℚ
  isPlaying : Bool
  isPaused : Bool
  currentMarker : Option SoundMarker
  currentConfig : SoundConfig
  markers : List SoundMarker
  totalRate : ℚ
  pendingRemove : Bool
deriving DecidableEq, Repr

/-- The whole state: the manager, the asset cache, the two object stores, the emitted
notifications (oldest first) and the lines written with `console.error`. -/
structure World where
  manager : SoundManager
  cache : String → Option (List Nat)
  audioTags : Nat → AudioTag
  sounds : Nat → Sound
  events : List Emitted
  console : List String

/-- Overwrite sound object `i`. -/
def World.setSound (w : World) (i : Nat) (s : Sound) : World :=
  { w with sounds := Function.update w.sounds i s }

/-- Overwrite audio element `h`. -/
def World.setAudio (w : World) (h : Nat) (a : AudioTag) : World :=
  { w with audioTags := Function.update w.audioTags h a }

/-- Call `emit(name, this, value)` on sound `i`: the notification is appended to the log. -/
def World.emit (w : World) (name : String) (i : Nat) (value : Value) : World :=
  { w with events := w.events ++ [⟨name, i, value⟩] }

/-- Call `audio.play()` on element `h`. -/
def World.audioPlay (w : World) (h : Nat) : World :=
  w.setAudio h { w.audioTags h with paused := false }

/-- Call `audio.pause()` on element `h`. -/
def World.audioPause (w : World) (h : Nat) : World :=
  w.setAudio h { w.audioTags h with paused := true }

/-- The value of `this.currentMarker ? this.currentMarker.start : 0`. -/
def markerStart (s : Sound) : ℚ :=
  match s.currentMarker with
  | some m => m.start
  | none => 0

/-! ## The base class and the manager -/

/-- Modelled from the spec: `BaseSound.prototype.resetConfig`, which is not in the source
file. The pending seek and delay are one-shot and are cleared. -/
def BaseSound.resetConfig (w : World) (i : Nat) : World :=
  w.setSound i { w.sounds i with
    currentConfig := { (w.sounds i).currentConfig with seek := 0, delay := 0 } }

/-- Modelled from the spec: `BaseSound.prototype.play`, which is not in the source file.
A base-state transition returning success or failure: it fails for a marker name that is
not known; otherwise it selects the marker (none for the empty name), takes the call's
configuration as the pending one and leaves `isPlaying = true, isPaused = false`. -/
def BaseSound.play (w : World) (i : Nat) (markerName : String) (config : SoundConfig) :
    World × Bool :=
  let s := w.sounds i
  if markerName = "" then
    (w.setSound i { s with currentMarker := none, duration := s.totalDuration,
                           currentConfig := config, isPlaying := true, isPaused := false }, true)
  else
    match s.markers.find? (fun m => m.name = markerName) with
    | none => (w, false)
    | some m =>
      (w.setSound i { s with currentMarker := some m, duration := m.duration,
                             currentConfig := config, isPlaying := true, isPaused := false }, true)

/-- Modelled from the spec: `BaseSound.prototype.pause`, which is not in the source file.
It succeeds from Playing only and leaves `isPlaying = false, isPaused = true`. -/
def BaseSound.pause (w : World) (i : Nat) : World × Bool :=
  let s := w.sounds i
  if s.isPaused || !s.isPlaying then (w, false)
  else (w.setSound i { s with isPlaying := false, isPaused := true }, true)

/-- Modelled from the spec: `BaseSound.prototype.resume`, which is not in the source file.
It succeeds from Paused only and leaves `isPlaying = true, isPaused = false`. -/
def BaseSound.resume (w : World) (i : Nat) : World × Bool :=
  let s := w.sounds i
  if !s.isPaused || s.isPlaying then (w, false)
  else (w.setSound i { s with isPlaying := true, isPaused := false }, true)

/-- Modelled from the spec: `BaseSound.prototype.stop`, which is not in the source file.
It fails when the sound is neither playing nor paused; otherwise it leaves
`isPlaying = false, isPaused = false` and clears the pending seek and delay. -/
def BaseSound.stop (w : World) (i : Nat) : World × Bool :=
  let s := w.sounds i
  if !s.isPaused && !s.isPlaying then (w, false)
  else (BaseSound.resetConfig (w.setSound i { s with isPlaying := false, isPaused := false }) i, true)

/-- Modelled from the spec: `BaseSound.prototype.destroy`, which is not in the source file.
The sound leaves the manager's active set, loses its reference to the manager and is neither
playing nor paused. A second call does nothing. -/
def BaseSound.destroy (w : World) (i : Nat) : World :=
  let s := w.sounds i
  if s.pendingRemove then w
  else w.setSound i { s with pendingRemove := true, manager := false, isPlaying := false,
                             isPaused := false, currentMarker := none }

/-- Modelled from the spec: `BaseSound.prototype.setRate`, which is not in the source file.
The total rate is recomputed from the stored rate and the manager's rate; the factor that
comes from `detune` is a real power and is not represented. -/
def BaseSound.setRate (w : World) (i : Nat) : Option World :=
  let s := w.sounds i
  if s.manager then some (w.setSound i { s with totalRate := s.currentConfig.rate * w.manager.rate })
  else none

/-- Modelled from the spec: the base constructor `BaseSound.call(this, manager, key, config)`,
which is not in the source file. It stores the manager, the key and the configuration and
leaves the sound neither playing nor paused. -/
def BaseSound.construct (w : World) (i : Nat) (key : String) (config : SoundConfig)
    (markers : List SoundMarker) : World :=
  w.setSound i { w.sounds i with
    manager := true, key := key, isPlaying := false, isPaused := false,
    currentMarker := none, currentConfig := config, markers := markers,
    totalRate := 1, pendingRemove := false }

/-- Modelled from the spec: `manager.forEachActiveSound`, which is not in the source file.
It enumerates the registered sounds that are not pending removal, in registration order. -/
def forEachActiveSound (w : World) : List Nat :=
  w.manager.sounds.filter (fun j => !(w.sounds j).pendingRemove)

/-! ## HTML5AudioSound -/

/-- A sound object on which no constructor has run: every field is `undefined`. The
falsy values stand for `undefined` (`isPlaying`, `audio`, `manager` are only tested for
truthiness before anything else is read). -/
def blankSound : Sound :=
  { manager := false, key := "", tags := none, audio := none, startTime := 0,
    previousTime := 0, touchLockedActionQueue := none, duration := 0, totalDuration := 0,
    isPlaying := false, isPaused := false, currentMarker := none,
    currentConfig := ⟨false, 1, 1, 0, 0, false, 0⟩, markers := [], totalRate := 1,
    pendingRemove := false }

/-- The constructor (`initialize: function HTML5AudioSound(manager, key, config)`), run on
the blank object `i`. -/
def construct (w : World) (i : Nat) (key : String) (config : SoundConfig)
    (markers : List SoundMarker) : Option World :=
  let w0 := w.setSound i blankSound
  match w.cache key with
  | none =>
    some { w0 with console := w0.console ++ ["No audio loaded in cache with key: " ++ key] }
  | some tags =>
    match tags with
    | [] => none
    | t0 :: _ =>
      let w1 := w0.setSound i { w0.sounds i with
        tags := some tags, audio := none, startTime := 0, previousTime := 0,
        touchLockedActionQueue := if w.manager.touchLocked then some [] else none,
        duration := (w.audioTags t0).duration, totalDuration := (w.audioTags t0).duration }
      some (BaseSound.construct w1 i key config markers)

/-- The method `checkTouchLocked(type, name, value)`. -/
def checkTouchLocked (w : World) (i : Nat) (type name : String) (value : Value) (now : ℚ) :
    Option (World × Bool) :=
  let s := w.sounds i
  if s.manager then
    if w.manager.touchLocked then
      match s.touchLockedActionQueue with
      | none => none
      | some q =>
        some (w.setSound i { s with
          touchLockedActionQueue := some (q ++ [⟨i, type, name, value, now⟩]) }, true)
    else some (w, false)
  else none

/-- The method `setMute`. -/
def setMute (w : World) (i : Nat) : Option World :=
  let s := w.sounds i
  match s.audio with
  | none => some w
  | some h =>
    if s.manager then
      some (w.setAudio h { w.audioTags h with muted := s.currentConfig.mute || w.manager.mute })
    else none

/-- The method `setVolume`. -/
def setVolume (w : World) (i : Nat) : Option World :=
  let s := w.sounds i
  match s.audio with
  | none => some w
  | some h =>
    if s.manager then
      some (w.setAudio h { w.audioTags h with volume := s.currentConfig.volume * w.manager.volume })
    else none

/-- The method `setRate`. -/
def setRate (w : World) (i : Nat) : Option World :=
  match BaseSound.setRate w i with
  | none => none
  | some w1 =>
    match (w1.sounds i).audio with
    | none => some w1
    | some h => some (w1.setAudio h { w1.audioTags h with playbackRate := (w1.sounds i).totalRate })

/-- Modelled from the spec: `BaseSound.prototype.applyConfig`, which is not in the source
file. The full configuration (mute, volume, rate, loop) is applied to the handle. -/
def BaseSound.applyConfig (w : World) (i : Nat) : Option World :=
  match HTML5Audio.setMute w i with
  | none => none
  | some w1 =>
    match HTML5Audio.setVolume w1 i with
    | none => none
    | some w2 =>
      match HTML5Audio.setRate w2 i with
      | none => none
      | some w3 =>
        match (w3.sounds i).audio with
        | none => some w3
        | some h => some (w3.setAudio h { w3.audioTags h with loop := (w3.sounds i).currentConfig.loop })

/-- The method `reset`. -/
def reset (w : World) (i : Nat) : World :=
  (BaseSound.stop w i).1

/-- The method `stopAndReleaseAudioTag`. -/
def stopAndReleaseAudioTag (w : World) (i : Nat) : Option World :=
  match (w.sounds i).audio with
  | none => none
  | some h =>
    let w1 := w.audioPause h
    let w2 := w1.setAudio h { w1.audioTags h with used := false }
    let w3 := w2.setSound i { w2.sounds i with audio := none }
    let w4 := w3.setSound i { w3.sounds i with startTime := 0 }
    some (w4.setSound i { w4.sounds i with previousTime := 0 })

/-- The getter of `seek`, for a sound that holds a handle whenever it is playing. Without a
handle the read of a playing sound is a `TypeError`; see `getSeek`. -/
def seekValue (w : World) (s : Sound) : ℚ :=
  if s.isPlaying then
    match s.audio with
    | some h => (w.audioTags h).currentTime - markerStart s
    | none => 0
  else if s.isPaused then s.currentConfig.seek
  else 0

/-- The getter of `seek`. -/
def getSeek (w : World) (i : Nat) : Option ℚ :=
  let s := w.sounds i
  if s.isPlaying && s.audio.isNone then none else some (seekValue w s)

/-- The comparator that `pickAudioTag` passes to `sort`. Every sound it is called on holds
a handle, so the reads of `seek` succeed. -/
def compareSounds (w : World) (a1 a2 : Nat) : ℚ :=
  let s1 := w.sounds a1
  let s2 := w.sounds a2
  if s1.currentConfig.loop = s2.currentConfig.loop then
    seekValue w s2 / s2.duration - seekValue w s1 / s1.duration
  else if s1.currentConfig.loop then 1 else -1

/-- Insert `x` in front of the first element that it does not have to follow. -/
def insertSound (cmp : Nat → Nat → ℚ) (x : Nat) : List Nat → List Nat
  | [] => [x]
  | y :: ys => if cmp x y ≤ 0 then x :: y :: ys else y :: insertSound cmp x ys

/-- The platform's `Array.prototype.sort(cmp)`: a stable sort, here by insertion. -/
def sortSounds (cmp : Nat → Nat → ℚ) : List Nat → List Nat
  | [] => []
  | x :: xs => insertSound cmp x (sortSounds cmp xs)

/-- The list `otherSounds_1` that `pickAudioTag` collects for sound `i`. -/
def otherSounds (w : World) (i : Nat) : List Nat :=
  (forEachActiveSound w).filter
    (fun j => (w.sounds j).key = (w.sounds i).key && (w.sounds j).audio.isSome)

/-- The method `pickAudioTag`. -/
def pickAudioTag (w : World) (i : Nat) : Option (World × Bool) :=
  match (w.sounds i).audio with
  | some _ => some (w, true)
  | none =>
    match (w.sounds i).tags with
    | none => none
    | some tags =>
      match tags.find? (fun h => !(w.audioTags h).used) with
      | some h =>
        let w1 := w.setAudio h { w.audioTags h with used := true }
        some (w1.setSound i { w1.sounds i with audio := some h }, true)
      | none =>
        if (w.sounds i).manager then
          if !w.manager.override then some (w, false)
          else
            match sortSounds (compareSounds w) (otherSounds w i) with
            | [] => none
            | selectedSound :: _ =>
              let w1 := w.setSound i { w.sounds i with audio := (w.sounds selectedSound).audio }
              let w2 := reset w1 selectedSound
              let w3 := w2.setSound selectedSound { w2.sounds selectedSound with audio := none }
              let w4 := w3.setSound selectedSound { w3.sounds selectedSound with startTime := 0 }
              some (w4.setSound selectedSound
                { w4.sounds selectedSound with previousTime := 0 }, true)
        else none

/-- The method `pickAndPlayAudioTag`. -/
def pickAndPlayAudioTag (w : World) (i : Nat) (now : ℚ) : Option (World × Bool) :=
  match pickAudioTag w i with
  | none => none
  | some (w1, false) => some (reset w1 i, false)
  | some (w1, true) =>
    let seek := (w1.sounds i).currentConfig.seek
    let delay := (w1.sounds i).currentConfig.delay
    let offset := markerStart (w1.sounds i) + seek
    let w2 := w1.setSound i { w1.sounds i with previousTime := offset }
    match (w2.sounds i).audio with
    | none => none
    | some h =>
      let w3 := w2.setAudio h { w2.audioTags h with currentTime := offset }
      match BaseSound.applyConfig w3 i with
      | none => none
      | some w4 =>
        let w5 :=
          if delay = 0 then
            let w41 := w4.setSound i { w4.sounds i with startTime := 0 }
            if (w41.audioTags h).paused then w41.audioPlay h else w41
          else
            let w41 := w4.setSound i { w4.sounds i with startTime := now + delay * 1000 }
            if !(w41.audioTags h).paused then w41.audioPause h else w41
        some (BaseSound.resetConfig w5 i, true)

/-- The method `play(markerName, config)`. -/
def play (w : World) (i : Nat) (markerName : String) (config : SoundConfig) (now : ℚ) :
    Option (World × Bool) :=
  match checkTouchLocked w i "method" "play" (Value.playArgs markerName config) now with
  | none => none
  | some (w1, true) => some (w1, false)
  | some (w1, false) =>
    match BaseSound.play w1 i markerName config with
    | (w2, false) => some (w2, false)
    | (w2, true) =>
      match pickAndPlayAudioTag w2 i now with
      | none => none
      | some (w3, false) => some (w3, false)
      | some (w3, true) => some (w3.emit "play" i Value.undefined, true)

/-- The method `pause()`. -/
def pause (w : World) (i : Nat) (now : ℚ) : Option (World × Bool) :=
  match checkTouchLocked w i "method" "pause" Value.undefined now with
  | none => none
  | some (w1, true) => some (w1, false)
  | some (w1, false) =>
    if (w1.sounds i).startTime > 0 then some (w1, false)
    else
      match BaseSound.pause w1 i with
      | (w2, false) => some (w2, false)
      | (w2, true) =>
        match (w2.sounds i).audio with
        | none => none
        | some h =>
          let s := w2.sounds i
          let w3 := w2.setSound i { s with currentConfig :=
            { s.currentConfig with seek := (w2.audioTags h).currentTime - markerStart s } }
          match stopAndReleaseAudioTag w3 i with
          | none => none
          | some w4 => some (w4.emit "pause" i Value.undefined, true)

/-- The method `resume()`. -/
def resume (w : World) (i : Nat) (now : ℚ) : Option (World × Bool) :=
  match checkTouchLocked w i "method" "resume" Value.undefined now with
  | none => none
  | some (w1, true) => some (w1, false)
  | some (w1, false) =>
    if (w1.sounds i).startTime > 0 then some (w1, false)
    else
      match BaseSound.resume w1 i with
      | (w2, false) => some (w2, false)
      | (w2, true) =>
        match pickAndPlayAudioTag w2 i now with
        | none => none
        | some (w3, false) => some (w3, false)
        | some (w3, true) => some (w3.emit "resume" i Value.undefined, true)

/-- The method `stop()`. -/
def stop (w : World) (i : Nat) (now : ℚ) : Option (World × Bool) :=
  match checkTouchLocked w i "method" "stop" Value.undefined now with
  | none => none
  | some (w1, true) => some (w1, false)
  | some (w1, false) =>
    match BaseSound.stop w1 i with
    | (w2, false) => some (w2, false)
    | (w2, true) =>
      match stopAndReleaseAudioTag w2 i with
      | none => none
      | some w3 => some (w3.emit "stop" i Value.undefined, true)

/-- The method `onBlur()`. -/
def onBlur (w : World) (i : Nat) (now : ℚ) : Option World :=
  let w1 := w.setSound i { w.sounds i with isPlaying := false }
  let w2 := w1.setSound i { w1.sounds i with isPaused := true }
  match (w2.sounds i).audio with
  | none => none
  | some h =>
    let s := w2.sounds i
    let w3 := w2.setSound i { s with currentConfig :=
      { s.currentConfig with seek := (w2.audioTags h).currentTime - markerStart s } }
    let s3 := w3.sounds i
    let w4 := w3.setSound i { s3 with currentConfig :=
      { s3.currentConfig with delay := max 0 ((s3.startTime - now) / 1000) } }
    stopAndReleaseAudioTag w4 i

/-- The method `onFocus()`. -/
def onFocus (w : World) (i : Nat) (now : ℚ) : Option World :=
  let w1 := w.setSound i { w.sounds i with isPlaying := true }
  let w2 := w1.setSound i { w1.sounds i with isPaused := false }
  match pickAndPlayAudioTag w2 i now with
  | none => none
  | some (w3, _) => some w3

/-- The method `update(time, delta)`; `delta` is not read. -/
def update (w : World) (i : Nat) (time : ℚ) : Option World :=
  let s := w.sounds i
  if s.isPlaying then
    if s.startTime > 0 then
      if s.manager then
        if s.startTime < time - w.manager.audioPlayDelay then
          match s.audio with
          | none => none
          | some h =>
            let w1 := w.setAudio h { w.audioTags h with
              currentTime := (w.audioTags h).currentTime + max 0 (time - s.startTime) / 1000 }
            let w2 := w1.setSound i { w1.sounds i with startTime := 0 }
            let w3 := w2.setSound i { w2.sounds i with previousTime := (w2.audioTags h).currentTime }
            some (w3.audioPlay h)
        else some w
      else none
    else
      let startTime := markerStart s
      let endTime := startTime + s.duration
      match s.audio with
      | none => none
      | some h =>
        let currentTime := (w.audioTags h).currentTime
        if s.currentConfig.loop then
          if s.manager then
            let w1 :=
              if currentTime ≥ endTime - w.manager.loopEndOffset then
                w.setAudio h { w.audioTags h with
                  currentTime := startTime + max 0 (currentTime - endTime) }
              else if currentTime < startTime then
                w.setAudio h { w.audioTags h with currentTime := currentTime + startTime }
              else w
            let currentTime1 := (w1.audioTags h).currentTime
            let w2 := if currentTime1 < s.previousTime then w1.emit "looped" i Value.undefined else w1
            some (w2.setSound i { w2.sounds i with previousTime := currentTime1 })
          else none
        else if currentTime ≥ endTime then
          match stopAndReleaseAudioTag (reset w i) i with
          | none => none
          | some w2 => some (w2.emit "ended" i Value.undefined)
        else some (w.setSound i { s with previousTime := currentTime })
  else some w

/-- The method `destroy()`. -/
def destroy (w : World) (i : Nat) : Option World :=
  let w1 := BaseSound.destroy w i
  let w2 := w1.setSound i { w1.sounds i with tags := none }
  match (w2.sounds i).audio with
  | some _ => stopAndReleaseAudioTag w2 i
  | none => some w2

/-- The setter of `mute`. -/
def setMuteProp (w : World) (i : Nat) (value : Bool) (now : ℚ) : Option World :=
  let s := w.sounds i
  let w1 := w.setSound i { s with currentConfig := { s.currentConfig with mute := value } }
  match checkTouchLocked w1 i "property" "mute" (Value.bool value) now with
  | none => none
  | some (w2, true) => some w2
  | some (w2, false) =>
    match setMute w2 i with
    | none => none
    | some w3 => some (w3.emit "mute" i (Value.bool value))

/-- The setter of `volume`. -/
def setVolumeProp (w : World) (i : Nat) (value : ℚ) (now : ℚ) : Option World :=
  let s := w.sounds i
  let w1 := w.setSound i { s with currentConfig := { s.currentConfig with volume := value } }
  match checkTouchLocked w1 i "property" "volume" (Value.num value) now with
  | none => none
  | some (w2, true) => some w2
  | some (w2, false) =>
    match setVolume w2 i with
    | none => none
    | some w3 => some (w3.emit "volume" i (Value.num value))

/-- Modelled from the spec: the setter of `rate` of `BaseSound`, which is not in the source
file: it stores the rate, calls the `setRate` hook and emits `rate`. -/
def BaseSound.setRateProp (w : World) (i : Nat) (value : ℚ) : Option World :=
  let s := w.sounds i
  let w1 := w.setSound i { s with currentConfig := { s.currentConfig with rate := value } }
  match HTML5Audio.setRate w1 i with
  | none => none
  | some w2 => some (w2.emit "rate" i (Value.num value))

/-- Modelled from the spec: the setter of `detune` of `BaseSound`, which is not in the
source file: it stores the detuning, calls the `setRate` hook and emits `detune`. -/
def BaseSound.setDetuneProp (w : World) (i : Nat) (value : ℚ) : Option World :=
  let s := w.sounds i
  let w1 := w.setSound i { s with currentConfig := { s.currentConfig with detune := value } }
  match HTML5Audio.setRate w1 i with
  | none => none
  | some w2 => some (w2.emit "detune" i (Value.num value))

/-- The setter of `rate`. -/
def setRateProp (w : World) (i : Nat) (value : ℚ) (now : ℚ) : Option World :=
  let s := w.sounds i
  let w1 := w.setSound i { s with currentConfig := { s.currentConfig with rate := value } }
  match checkTouchLocked w1 i "property" "rate" (Value.num value) now with
  | none => none
  | some (w2, true) => some w2
  | some (w2, false) => BaseSound.setRateProp w2 i value

/-- The setter of `detune`. -/
def setDetuneProp (w : World) (i : Nat) (value : ℚ) (now : ℚ) : Option World :=
  let s := w.sounds i
  let w1 := w.setSound i { s with currentConfig := { s.currentConfig with detune := value } }
  match checkTouchLocked w1 i "property" "detune" (Value.num value) now with
  | none => none
  | some (w2, true) => some w2
  | some (w2, false) => BaseSound.setDetuneProp w2 i value

/-- The setter of `seek`. -/
def setSeek (w : World) (i : Nat) (value : ℚ) : Option World :=
  let s := w.sounds i
  if s.startTime > 0 then some w
  else if s.isPlaying || s.isPaused then
    let value1 := min (max 0 value) s.duration
    if s.isPlaying then
      let w1 := w.setSound i { s with previousTime := value1 }
      match (w1.sounds i).audio with
      | none => none
      | some h =>
        some ((w1.setAudio h { w1.audioTags h with currentTime := value1 }).emit
          "seek" i (Value.num value1))
    else
      some ((w.setSound i { s with currentConfig := { s.currentConfig with seek := value1 } }).emit
        "seek" i (Value.num value1))
  else some w

/-- The setter of `loop`. -/
def setLoop (w : World) (i : Nat) (value : Bool) : World :=
  let s := w.sounds i
  let w1 := w.setSound i { s with currentConfig := { s.currentConfig with loop := value } }
  let w2 :=
    match (w1.sounds i).audio with
    | some h => w1.setAudio h { w1.audioTags h with loop := value }
    | none => w1
  w2.emit "loop" i (Value.bool value)

/-! ## Runs and example states -/

/-- The method `update` called once for each tick time of the list, in order. -/
def updates (w : World) (i : Nat) : List ℚ → Option World
  | [] => some w
  | t :: ts =>
    match update w i t with
    | none => none
    | some w1 => updates w1 i ts

/-- A free audio element of length 10, paused at position 0. -/
def exTag : AudioTag :=
  { used := false, paused := true, currentTime := 0, duration := 10, muted := false,
    volume := 1, playbackRate := 1, loop := false }

/-- The default configuration: no seek, no delay, no loop. -/
def exConfig : SoundConfig :=
  { mute := false, volume := 1, rate := 1, detune := 0, seek := 0, loop := false, delay := 0 }

/-- An unlocked manager without preemption that has registered the sounds 0, 1 and 2. -/
def exManager : SoundManager :=
  { touchLocked := false, override := false, audioPlayDelay := 40, loopEndOffset := 1 / 10,
    mute := false, volume := 1, rate := 1, sounds := [0, 1, 2] }

/-- An idle sound of key `k` whose handle list is `[0, 1]`, with one marker `m = [2, 7)`. -/
def exSound : Sound :=
  { manager := true, key := "k", tags := some [0, 1], audio := none, startTime := 0,
    previousTime := 0, touchLockedActionQueue := none, duration := 10, totalDuration := 10,
    isPlaying := false, isPaused := false, currentMarker := none, currentConfig := exConfig,
    markers := [⟨"m", 2, 5⟩], totalRate := 1, pendingRemove := false }

/-- The state after loading key `k` with two handles and constructing idle sounds. -/
def exWorld : World :=
  { manager := exManager,
    cache := fun key => if key = "k" then some [0, 1] else none,
    audioTags := fun _ => exTag, sounds := fun _ => exSound, events := [], console := [] }

/-- Sound 0 plays on handle 0, which is at position `pos`. -/
def exPlaying (pos : ℚ) : World :=
  (exWorld.setAudio 0 { exTag with used := true, paused := false, currentTime := pos }).setSound 0
    { exSound with isPlaying := true, audio := some 0 }

/-- Sound 0 holds handle 0 for a delayed start at clock time 2100. -/
def exArmed : World :=
  (exWorld.setAudio 0 { exTag with used := true }).setSound 0
    { exSound with isPlaying := true, audio := some 0, startTime := 2100 }

/-- The state `exWorld` while the manager is locked; sound 0 has queued one action. -/
def exLocked : World :=
  { exWorld with manager := { exManager with touchLocked := true } }.setSound 0
    { exSound with touchLockedActionQueue := some [⟨0, "method", "play", Value.undefined, 1⟩] }

/-- Sound 0 plays the marker `m = [2, 7)` on handle 0, which is at position 4. -/
def exMarked : World :=
  (exWorld.setAudio 0 { exTag with used := true, paused := false, currentTime := 4 }).setSound 0
    { exSound with isPlaying := true, audio := some 0, currentMarker := some ⟨"m", 2, 5⟩,
                   duration := 5, previousTime := 4 }

/-- Three sounds of key `k` hold the handles 0, 1, 2 of length 10 at the positions 9, 1
and 2; sound 1 loops. Sound 3, of the same key, holds no handle. -/
def exThree : World :=
  { manager := { exManager with override := true, sounds := [0, 1, 2, 3] },
    cache := fun key => if key = "k" then some [0, 1, 2] else none,
    audioTags := fun h =>
      { exTag with used := decide (h < 3), paused := false,
                   currentTime := if h = 0 then 9 else if h = 1 then 1 else 2 },
    sounds := fun j =>
      if j < 3 then
        { exSound with tags := some [0, 1, 2], isPlaying := true, audio := some j,
                       currentConfig := { exConfig with loop := decide (j = 1) } }
      else { exSound with tags := some [0, 1, 2] },
    events := [], console := [] }

/-- Both handles of key `k` are taken by the playing sounds 0 and 1; sound 2 is paused and
holds no handle. Preemption is disabled. -/
def exFull : World :=
  { exWorld with
    audioTags := fun _ => { exTag with used := true, paused := false },
    sounds := fun j =>
      if j < 2 then { exSound with isPlaying := true, audio := some j }
      else { exSound with isPaused := true } }

/-- Both handles of key `k` are held by the playing sounds 5 and 6, which were constructed
but are not in the registry of the manager; sound 2 is paused and holds no handle.
Preemption is enabled. -/
def exOrphan : World :=
  { exWorld with
    manager := { exManager with override := true },
    audioTags := fun _ => { exTag with used := true, paused := false },
    sounds := fun j =>
      if j = 5 then { exSound with isPlaying := true, audio := some 0 }
      else if j = 6 then { exSound with isPlaying := true, audio := some 1 }
      else { exSound with isPaused := true } }

/-- Sound 0 loops over the marker `[0, 5)` on handle 0, which is at position `pos`; the
position recorded by the previous tick is `prev`. -/
def exLooping (pos prev : ℚ) : World :=
  (exWorld.setAudio 0 { exTag with used := true, paused := false, currentTime := pos }).setSound 0
    { exSound with isPlaying := true, audio := some 0, duration := 5, previousTime := prev,
                   currentMarker := some ⟨"intro", 0, 5⟩,
                   currentConfig := { exConfig with loop := true } }

/-- A call of one of the methods of a sound object, or a write of `seek`, with its
arguments and the clock reading it sees. -/
inductive Call where
  | play (i : Nat) (markerName : String) (config : SoundConfig) (now : ℚ)
  | pause (i : Nat) (now : ℚ)
  | resume (i : Nat) (now : ℚ)
  | stop (i : Nat) (now : ℚ)
  | update (i : Nat) (time : ℚ)
  | onBlur (i : Nat) (now : ℚ)
  | onFocus (i : Nat) (now : ℚ)
  | destroy (i : Nat)
  | setSeek (i : Nat) (value : ℚ)

/-- Perform one call; `none` when it raises. -/
def step (w : World) : Call → Option World
  | Call.play i markerName config now => (play w i markerName config now).map Prod.fst
  | Call.pause i now => (pause w i now).map Prod.fst
  | Call.resume i now => (resume w i now).map Prod.fst
  | Call.stop i now => (stop w i now).map Prod.fst
  | Call.update i time => update w i time
  | Call.onBlur i now => onBlur w i now
  | Call.onFocus i now => onFocus w i now
  | Call.destroy i => destroy w i
  | Call.setSeek i value => setSeek w i value

/-- Perform the calls of the list in order; `none` as soon as one raises. -/
def run (w : World) : List Call → Option World
  | [] => some w
  | c :: cs =>
    match step w c with
    | none => none
    | some w1 => run w1 cs

/-- Pool exclusivity: a held handle is marked used, no two sounds hold the same handle, and
a used handle is held by some sound. -/
structure Pool (w : World) : Prop where
  used_of_held : ∀ i h, (w.sounds i).audio = some h → (w.audioTags h).used = true
  held_unique : ∀ i j h, (w.sounds i).audio = some h → (w.sounds j).audio = some h → i = j
  held_of_used : ∀ h, (w.audioTags h).used = true → ∃ i, (w.sounds i).audio = some h

/-- The delayed-start invariant: a sound with an armed start holds a handle that is paused. -/
def Armed (w : World) : Prop :=
  ∀ i, (w.sounds i).startTime > 0 →
    ∃ h, (w.sounds i).audio = some h ∧ (w.audioTags h).paused = true

/-- One elementary change of the handle references, start times and used and paused flags,
which are all that `Pool` and `Armed` read. -/
inductive Move (w w1 : World) : Prop where
  /-- None of them changes. -/
  | frame
      (haud : ∀ j, (w1.sounds j).audio = (w.sounds j).audio)
      (hst : ∀ j, (w1.sounds j).startTime = (w.sounds j).startTime)
      (hused : ∀ h, (w1.audioTags h).used = (w.audioTags h).used)
      (hpaused : ∀ h, (w1.audioTags h).paused = (w.audioTags h).paused)
  /-- Sound `i` keeps its handle; its start time and the paused flag of its own handle may
  change as long as an armed start leaves the handle paused. -/
  | touch (i : Nat)
      (haud : ∀ j, (w1.sounds j).audio = (w.sounds j).audio)
      (hst : ∀ j, j ≠ i → (w1.sounds j).startTime = (w.sounds j).startTime)
      (hused : ∀ h, (w1.audioTags h).used = (w.audioTags h).used)
      (hpaused : ∀ h, (w.sounds i).audio ≠ some h →
        (w1.audioTags h).paused = (w.audioTags h).paused)
      (harm : (w1.sounds i).startTime > 0 →
        ∃ h, (w.sounds i).audio = some h ∧ (w1.audioTags h).paused = true)
  /-- Sound `i` gives up its handle `h`, which becomes free. -/
  | release (i h : Nat)
      (ha : (w.sounds i).audio = some h)
      (hi : (w1.sounds i).audio = none) (hi0 : (w1.sounds i).startTime = 0)
      (haud : ∀ j, j ≠ i → (w1.sounds j).audio = (w.sounds j).audio)
      (hst : ∀ j, j ≠ i → (w1.sounds j).startTime = (w.sounds j).startTime)
      (hh : (w1.audioTags h).used = false)
      (hused : ∀ k, k ≠ h → (w1.audioTags k).used = (w.audioTags k).used)
      (hpaused : ∀ k, k ≠ h → (w1.audioTags k).paused = (w.audioTags k).paused)
  /-- Sound `i`, which holds no handle, takes the free handle `h`. -/
  | acquire (i h : Nat)
      (ha : (w.sounds i).audio = none) (hf : (w.audioTags h).used = false)
      (hi : (w1.sounds i).audio = some h)
      (haud : ∀ j, j ≠ i → (w1.sounds j).audio = (w.sounds j).audio)
      (hst : ∀ j, (w1.sounds j).startTime = (w.sounds j).startTime)
      (hh : (w1.audioTags h).used = true)
      (hused : ∀ k, k ≠ h → (w1.audioTags k).used = (w.audioTags k).used)
      (hpaused : ∀ k, (w1.audioTags k).paused = (w.audioTags k).paused)
  /-- Sound `i`, which holds no handle, takes over the handle `h` of sound `v`. -/
  | preempt (i v h : Nat)
      (ha : (w.sounds i).audio = none) (hv : (w.sounds v).audio = some h)
      (hi : (w1.sounds i).audio = some h)
      (hi0 : (w1.sounds i).startTime = (w.sounds i).startTime)
      (hv1 : (w1.sounds v).audio = none) (hv0 : (w1.sounds v).startTime = 0)
      (haud : ∀ j, j ≠ i → j ≠ v → (w1.sounds j).audio = (w.sounds j).audio)
      (hst : ∀ j, j ≠ i → j ≠ v → (w1.sounds j).startTime = (w.sounds j).startTime)
      (hused : ∀ k, (w1.audioTags k).used = (w.audioTags k).used)
      (hpaused : ∀ k, (w1.audioTags k).paused = (w.audioTags k).paused)

/-- A finite sequence of elementary changes. -/
inductive Moves : World → World → Prop where
  | refl (w : World) : Moves w w
  | step {w w1 w2 : World} (h : Move w w1) (t : Moves w1 w2) : Moves w w2

/-- The state `exWorld` with preemption enabled: two free handles, no sound holds one. -/
def exFresh : World :=
  { exWorld with manager := { exManager with override := true } }

/-- Three sounds compete for two handles: sound 0 starts with a delay of 2 s, sound 1 starts
at once, sound 2 preempts sound 1 and is then paused, resumed, moved, suspended and woken,
sound 1 preempts it back with a delay of 1 s, and the calls on sound 2 that follow find it
idle. -/
def exCalls : List Call :=
  [Call.play 0 "" { exConfig with delay := 2 } 100,
   Call.play 1 "m" { exConfig with seek := 1 } 200,
   Call.update 0 1100,
   Call.play 2 "" exConfig 1200,
   Call.update 2 1216,
   Call.pause 2 1300,
   Call.resume 2 1400,
   Call.setSeek 2 4,
   Call.onBlur 2 1500,
   Call.onFocus 2 1600,
   Call.play 1 "" { exConfig with delay := 1 } 1700,
   Call.stop 2 1800,
   Call.destroy 2]

/-! ## Store lemmas -/

@[simp] theorem setSound_sounds (w : World) (i j : Nat) (s : Sound) :
    (w.setSound i s).sounds j = if j = i then s else w.sounds j := by
  simp [World.setSound, Function.update_apply]

@[simp] theorem setSound_audioTags (w : World) (i : Nat) (s : Sound) :
    (w.setSound i s).audioTags = w.audioTags := rfl

@[simp] theorem setSound_manager (w : World) (i : Nat) (s : Sound) :
    (w.setSound i s).manager = w.manager := rfl

@[simp] theorem setSound_events (w : World) (i : Nat) (s : Sound) :
    (w.setSound i s).events = w.events := rfl

@[simp] theorem setAudio_audioTags (w : World) (h k : Nat) (a : AudioTag) :
    (w.setAudio h a).audioTags k = if k = h then a else w.audioTags k := by
  simp [World.setAudio, Function.update_apply]

@[simp] theorem setAudio_sounds (w : World) (h : Nat) (a : AudioTag) :
    (w.setAudio h a).sounds = w.sounds := rfl

@[simp] theorem setAudio_manager (w : World) (h : Nat) (a : AudioTag) :
    (w.setAudio h a).manager = w.manager := rfl

@[simp] theorem setAudio_events (w : World) (h : Nat) (a : AudioTag) :
    (w.setAudio h a).events = w.events := rfl

@[simp] theorem emit_sounds (w : World) (n : String) (i : Nat) (v : Value) :
    (w.emit n i v).sounds = w.sounds := rfl

@[simp] theorem emit_audioTags (w : World) (n : String) (i : Nat) (v : Value) :
    (w.emit n i v).audioTags = w.audioTags := rfl

@[simp] theorem emit_manager (w : World) (n : String) (i : Nat) (v : Value) :
    (w.emit n i v).manager = w.manager := rfl

@[simp] theorem emit_events (w : World) (n : String) (i : Nat) (v : Value) :
    (w.emit n i v).events = w.events ++ [⟨n, i, v⟩] := rfl

@[simp] theorem setSound_console (w : World) (i : Nat) (s : Sound) :
    (w.setSound i s).console = w.console := rfl

@[simp] theorem setAudio_console (w : World) (h : Nat) (a : AudioTag) :
    (w.setAudio h a).console = w.console := rfl

@[simp] theorem emit_console (w : World) (n : String) (i : Nat) (v : Value) :
    (w.emit n i v).console = w.console := rfl

theorem checkTouchLocked_unlocked (w : World) (i : Nat) (t n : String) (v : Value) (now : ℚ)
    (hm : (w.sounds i).manager = true) (hl : w.manager.touchLocked = false) :
    checkTouchLocked w i t n v now = some (w, false) := by
  simp [checkTouchLocked, hm, hl]

theorem update_not_playing (w : World) (i : Nat) (t : ℚ) (h : (w.sounds i).isPlaying = false) :
    update w i t = some w := by
  simp [update, h]

theorem stopAndRelease_eq (w : World) (i h : Nat) (ha : (w.sounds i).audio = some h) :
    stopAndReleaseAudioTag w i =
      some ((w.setAudio h { w.audioTags h with paused := true, used := false }).setSound i
        { w.sounds i with audio := none, startTime := 0, previousTime := 0 }) := by
  simp [stopAndReleaseAudioTag, ha, World.audioPause, World.setSound, World.setAudio]

theorem applyConfig_eq (w : World) (i h : Nat)
    (hm : (w.sounds i).manager = true) (ha : (w.sounds i).audio = some h) :
    BaseSound.applyConfig w i =
      some ((w.setSound i { w.sounds i with
                totalRate := (w.sounds i).currentConfig.rate * w.manager.rate }).setAudio h
              { w.audioTags h with
                muted := (w.sounds i).currentConfig.mute || w.manager.mute,
                volume := (w.sounds i).currentConfig.volume * w.manager.volume,
                playbackRate := (w.sounds i).currentConfig.rate * w.manager.rate,
                loop := (w.sounds i).currentConfig.loop }) := by
  simp [BaseSound.applyConfig, setMute, setVolume, setRate, BaseSound.setRate, hm, ha,
    World.setSound, World.setAudio]

/-- The effect of `pickAndPlayAudioTag` once a handle has been picked. -/
theorem pickAndPlay_of_pick (w w1 : World) (i h : Nat) (now : ℚ)
    (hpick : pickAudioTag w i = some (w1, true))
    (hm : (w1.sounds i).manager = true) (ha : (w1.sounds i).audio = some h) :
    ∃ w2, pickAndPlayAudioTag w i now = some (w2, true) ∧
      w2.sounds i = { w1.sounds i with
        previousTime := markerStart (w1.sounds i) + (w1.sounds i).currentConfig.seek,
        startTime := if (w1.sounds i).currentConfig.delay = 0 then 0
                     else now + (w1.sounds i).currentConfig.delay * 1000,
        totalRate := (w1.sounds i).currentConfig.rate * w1.manager.rate,
        currentConfig := { (w1.sounds i).currentConfig with seek := 0, delay := 0 } } ∧
      w2.audioTags h = { w1.audioTags h with
        currentTime := markerStart (w1.sounds i) + (w1.sounds i).currentConfig.seek,
        paused := decide ((w1.sounds i).currentConfig.delay ≠ 0),
        muted := (w1.sounds i).currentConfig.mute || w1.manager.mute,
        volume := (w1.sounds i).currentConfig.volume * w1.manager.volume,
        playbackRate := (w1.sounds i).currentConfig.rate * w1.manager.rate,
        loop := (w1.sounds i).currentConfig.loop } ∧
      (∀ j, j ≠ i → w2.sounds j = w1.sounds j) ∧
      (∀ k, k ≠ h → w2.audioTags k = w1.audioTags k) ∧
      w2.events = w1.events ∧ w2.manager = w1.manager := by
  simp only [pickAndPlayAudioTag, hpick, setSound_sounds, if_true, ha, setSound_audioTags]
  rw [applyConfig_eq _ i h (by simp [hm]) (by simp [ha])]
  simp only []
  refine ⟨_, rfl, ?_, ?_, ?_, ?_, ?_, ?_⟩
  · by_cases hd : (w1.sounds i).currentConfig.delay = 0 <;>
      simp [hd, BaseSound.resetConfig, World.audioPlay, World.audioPause, apply_ite]
  · by_cases hd : (w1.sounds i).currentConfig.delay = 0 <;>
      cases hp : (w1.audioTags h).paused <;>
      simp [hd, hp, BaseSound.resetConfig, World.audioPlay, World.audioPause]
  · intro j hj
    by_cases hd : (w1.sounds i).currentConfig.delay = 0 <;>
      simp [hd, hj, BaseSound.resetConfig, World.audioPlay, World.audioPause, apply_ite]
  · intro k hk
    by_cases hd : (w1.sounds i).currentConfig.delay = 0 <;>
      cases hp : (w1.audioTags h).paused <;>
      simp [hd, hp, hk, BaseSound.resetConfig, World.audioPlay, World.audioPause]
  · by_cases hd : (w1.sounds i).currentConfig.delay = 0 <;>
      cases hp : (w1.audioTags h).paused <;>
      simp [hd, hp, BaseSound.resetConfig, World.audioPlay, World.audioPause]
  · by_cases hd : (w1.sounds i).currentConfig.delay = 0 <;>
      cases hp : (w1.audioTags h).paused <;>
      simp [hd, hp, BaseSound.resetConfig, World.audioPlay, World.audioPause]

theorem pickAudioTag_owned (w : World) (i h : Nat) (ha : (w.sounds i).audio = some h) :
    pickAudioTag w i = some (w, true) := by
  simp [pickAudioTag, ha]

theorem pickAudioTag_free (w : World) (i h : Nat) (ts : List Nat)
    (ha : (w.sounds i).audio = none) (ht : (w.sounds i).tags = some ts)
    (hf : ts.find? (fun k => !(w.audioTags k).used) = some h) :
    pickAudioTag w i =
      some ((w.setAudio h { w.audioTags h with used := true }).setSound i
        { w.sounds i with audio := some h }, true) := by
  simp [pickAudioTag, ha, ht, hf]

theorem exists_find_free (w : World) (ts : List Nat)
    (hfree : ∃ k, k ∈ ts ∧ (w.audioTags k).used = false) :
    ∃ h, ts.find? (fun k => !(w.audioTags k).used) = some h ∧ h ∈ ts ∧
      (w.audioTags h).used = false := by
  obtain ⟨k, hk, hu⟩ := hfree
  have hs : (ts.find? (fun k => !(w.audioTags k).used)).isSome := by
    rw [List.find?_isSome]
    exact ⟨k, hk, by simp [hu]⟩
  obtain ⟨h, hh⟩ := Option.isSome_iff_exists.mp hs
  refine ⟨h, hh, List.mem_of_find?_eq_some hh, ?_⟩
  have := List.find?_some hh
  simpa using this

/-- The effect of `pickAndPlayAudioTag` for a sound without a handle when the list of its
key holds a free handle. -/
theorem pickAndPlay_free (w : World) (i : Nat) (ts : List Nat) (now : ℚ)
    (hm : (w.sounds i).manager = true)
    (ha : (w.sounds i).audio = none) (ht : (w.sounds i).tags = some ts)
    (hfree : ∃ k, k ∈ ts ∧ (w.audioTags k).used = false) :
    ∃ w2 h, pickAndPlayAudioTag w i now = some (w2, true) ∧ h ∈ ts ∧
      (w.audioTags h).used = false ∧
      ts.find? (fun k => !(w.audioTags k).used) = some h ∧
      w2.sounds i = { w.sounds i with
        audio := some h,
        previousTime := markerStart (w.sounds i) + (w.sounds i).currentConfig.seek,
        startTime := if (w.sounds i).currentConfig.delay = 0 then 0
                     else now + (w.sounds i).currentConfig.delay * 1000,
        totalRate := (w.sounds i).currentConfig.rate * w.manager.rate,
        currentConfig := { (w.sounds i).currentConfig with seek := 0, delay := 0 } } ∧
      w2.audioTags h = { w.audioTags h with
        used := true,
        currentTime := markerStart (w.sounds i) + (w.sounds i).currentConfig.seek,
        paused := decide ((w.sounds i).currentConfig.delay ≠ 0),
        muted := (w.sounds i).currentConfig.mute || w.manager.mute,
        volume := (w.sounds i).currentConfig.volume * w.manager.volume,
        playbackRate := (w.sounds i).currentConfig.rate * w.manager.rate,
        loop := (w.sounds i).currentConfig.loop } ∧
      (∀ j, j ≠ i → w2.sounds j = w.sounds j) ∧
      (∀ k, k ≠ h → w2.audioTags k = w.audioTags k) ∧
      w2.events = w.events ∧ w2.manager = w.manager := by
  obtain ⟨h, hf, hmem, hu⟩ := exists_find_free w ts hfree
  have hpick := pickAudioTag_free w i h ts ha ht hf
  obtain ⟨w2, h2, hs, hat, hso, hao, hev, hmg⟩ :=
    pickAndPlay_of_pick w _ i h now hpick (by simp [hm]) (by simp)
  refine ⟨w2, h, h2, hmem, hu, hf, ?_, ?_, ?_, ?_, ?_, ?_⟩
  · rw [hs]; simp [markerStart]
  · rw [hat]; simp [markerStart]
  · intro j hj; rw [hso j hj]; simp [hj]
  · intro k hk; rw [hao k hk]; simp [hk]
  · rw [hev]; simp
  · rw [hmg]; simp

theorem updates_not_playing (w : World) (i : Nat) (ts : List ℚ)
    (h : (w.sounds i).isPlaying = false) : updates w i ts = some w := by
  induction ts with
  | nil => rfl
  | cons t ts ih => simp [updates, update_not_playing w i t h, ih]

theorem onBlur_eq (w : World) (i h : Nat) (t1 : ℚ) (ha : (w.sounds i).audio = some h) :
    onBlur w i t1 =
      some ((w.setAudio h { w.audioTags h with paused := true, used := false }).setSound i
        { w.sounds i with
          isPlaying := false, isPaused := true, audio := none, startTime := 0, previousTime := 0,
          currentConfig := { (w.sounds i).currentConfig with
            seek := (w.audioTags h).currentTime - markerStart (w.sounds i),
            delay := max 0 (((w.sounds i).startTime - t1) / 1000) } }) := by
  simp only [onBlur, setSound_sounds, if_true, ha]
  rw [stopAndRelease_eq _ i h (by simp [ha])]
  simp [World.setSound, World.setAudio, markerStart]

theorem pause_eq (w : World) (i h : Nat) (now : ℚ)
    (hm : (w.sounds i).manager = true) (hl : w.manager.touchLocked = false)
    (hp : (w.sounds i).isPlaying = true) (hq : (w.sounds i).isPaused = false)
    (hs : (w.sounds i).startTime ≤ 0) (ha : (w.sounds i).audio = some h) :
    pause w i now =
      some (((w.setAudio h { w.audioTags h with paused := true, used := false }).setSound i
        { w.sounds i with
          isPlaying := false, isPaused := true, audio := none, startTime := 0, previousTime := 0,
          currentConfig := { (w.sounds i).currentConfig with
            seek := (w.audioTags h).currentTime - markerStart (w.sounds i) } }).emit
        "pause" i Value.undefined, true) := by
  have hbase : BaseSound.pause w i =
      (w.setSound i { w.sounds i with isPlaying := false, isPaused := true }, true) := by
    simp [BaseSound.pause, hp, hq]
  have hs2 : ¬ (w.sounds i).startTime > 0 := not_lt.mpr hs
  simp only [pause, checkTouchLocked_unlocked w i _ _ _ now hm hl, hs2, if_false, hbase]
  simp only [setSound_sounds, if_true, ha]
  rw [stopAndRelease_eq _ i h (by simp [ha])]
  simp [World.setSound, World.setAudio, World.emit, markerStart]

/-- The progress fraction `seek / duration` that the comparator reads. -/
theorem compareSounds_le_iff (w : World) (a b : Nat) :
    compareSounds w a b ≤ 0 ↔
      ((w.sounds a).currentConfig.loop = (w.sounds b).currentConfig.loop ∧
        seekValue w (w.sounds b) / (w.sounds b).duration ≤
          seekValue w (w.sounds a) / (w.sounds a).duration) ∨
      ((w.sounds a).currentConfig.loop = false ∧ (w.sounds b).currentConfig.loop = true) := by
  unfold compareSounds
  by_cases h : (w.sounds a).currentConfig.loop = (w.sounds b).currentConfig.loop
  · simp only [h, if_true, true_and, sub_nonpos]
    constructor
    · intro hle; exact Or.inl hle
    · rintro (hle | ⟨h1, h2⟩)
      · exact hle
      · rw [h1] at h2; exact absurd h2 (by decide)
  · cases ha : (w.sounds a).currentConfig.loop <;> cases hb : (w.sounds b).currentConfig.loop <;>
      simp_all

theorem insertSound_mem (cmp : Nat → Nat → ℚ) (x y : Nat) (l : List Nat) :
    y ∈ insertSound cmp x l ↔ y = x ∨ y ∈ l := by
  induction l with
  | nil => simp [insertSound]
  | cons z zs ih =>
    unfold insertSound
    split
    · simp
    · simp [ih]; tauto

theorem sortSounds_mem (cmp : Nat → Nat → ℚ) (y : Nat) (l : List Nat) :
    y ∈ sortSounds cmp l ↔ y ∈ l := by
  induction l with
  | nil => simp [sortSounds]
  | cons z zs ih => simp [sortSounds, insertSound_mem, ih]

/-- The first element of the sorted list precedes every element, for a comparator that is
reflexive, total and transitive. -/
theorem sortSounds_head (cmp : Nat → Nat → ℚ)
    (hrefl : ∀ a, cmp a a ≤ 0)
    (htotal : ∀ a b, cmp a b ≤ 0 ∨ cmp b a ≤ 0)
    (htrans : ∀ a b c, cmp a b ≤ 0 → cmp b c ≤ 0 → cmp a c ≤ 0)
    (l : List Nat) (hne : l ≠ []) :
    ∃ v rest, sortSounds cmp l = v :: rest ∧ v ∈ l ∧ ∀ j, j ∈ l → cmp v j ≤ 0 := by
  induction l with
  | nil => exact absurd rfl hne
  | cons x xs ih =>
    by_cases hxs : xs = []
    · subst hxs
      exact ⟨x, [], by simp [sortSounds, insertSound], by simp, by simpa using hrefl x⟩
    · obtain ⟨v, rest, hs, hv, hmin⟩ := ih hxs
      by_cases hc : cmp x v ≤ 0
      · refine ⟨x, v :: rest, by simp [sortSounds, hs, insertSound, hc], by simp, ?_⟩
        intro j hj
        rcases List.mem_cons.mp hj with rfl | hj
        · exact hrefl _
        · exact htrans _ _ _ hc (hmin j hj)
      · refine ⟨v, insertSound cmp x rest, by simp [sortSounds, hs, insertSound, hc],
          by simp [hv], ?_⟩
        intro j hj
        rcases List.mem_cons.mp hj with rfl | hj
        · exact (htotal _ _).resolve_right hc
        · exact hmin j hj

theorem compareSounds_head (w : World) (l : List Nat) (hne : l ≠ []) :
    ∃ v rest, sortSounds (compareSounds w) l = v :: rest ∧ v ∈ l ∧
      ∀ j, j ∈ l → compareSounds w v j ≤ 0 := by
  apply sortSounds_head _ _ _ _ l hne
  · intro a; simp [compareSounds_le_iff]
  · intro a b
    simp only [compareSounds_le_iff]
    cases ha : (w.sounds a).currentConfig.loop <;> cases hb : (w.sounds b).currentConfig.loop <;>
      simp <;> exact le_total _ _
  · intro a b c
    simp only [compareSounds_le_iff]
    cases ha : (w.sounds a).currentConfig.loop <;> cases hb : (w.sounds b).currentConfig.loop <;>
      cases hc : (w.sounds c).currentConfig.loop <;> simp <;>
      exact fun h1 h2 => le_trans h2 h1

theorem otherSounds_mem (w : World) (i v : Nat) :
    v ∈ otherSounds w i ↔ v ∈ w.manager.sounds ∧ (w.sounds v).pendingRemove = false ∧
      (w.sounds v).key = (w.sounds i).key ∧ (w.sounds v).audio.isSome = true := by
  simp only [otherSounds, forEachActiveSound, List.mem_filter, Bool.and_eq_true,
    Bool.not_eq_true', decide_eq_true_eq]
  tauto

theorem find_free_eq_none (w : World) (ts : List Nat) :
    ts.find? (fun k => !(w.audioTags k).used) = none ↔ ∀ k, k ∈ ts → (w.audioTags k).used = true := by
  simp [List.find?_eq_none]

@[simp] theorem reset_audioTags (w : World) (i : Nat) : (reset w i).audioTags = w.audioTags := by
  cases hp : (w.sounds i).isPaused <;> cases hq : (w.sounds i).isPlaying <;>
    simp [reset, BaseSound.stop, BaseSound.resetConfig, hp, hq]

@[simp] theorem reset_events (w : World) (i : Nat) : (reset w i).events = w.events := by
  cases hp : (w.sounds i).isPaused <;> cases hq : (w.sounds i).isPlaying <;>
    simp [reset, BaseSound.stop, BaseSound.resetConfig, hp, hq]

@[simp] theorem reset_manager (w : World) (i : Nat) : (reset w i).manager = w.manager := by
  cases hp : (w.sounds i).isPaused <;> cases hq : (w.sounds i).isPlaying <;>
    simp [reset, BaseSound.stop, BaseSound.resetConfig, hp, hq]

theorem reset_sounds_ne (w : World) (i j : Nat) (h : j ≠ i) :
    (reset w i).sounds j = w.sounds j := by
  cases hp : (w.sounds i).isPaused <;> cases hq : (w.sounds i).isPlaying <;>
    simp [reset, BaseSound.stop, BaseSound.resetConfig, hp, hq, h]

theorem reset_sounds_self (w : World) (i : Nat) :
    (reset w i).sounds i = { w.sounds i with
      isPlaying := false, isPaused := false,
      currentConfig :=
        if (w.sounds i).isPaused = false ∧ (w.sounds i).isPlaying = false
        then (w.sounds i).currentConfig
        else { (w.sounds i).currentConfig with seek := 0, delay := 0 } } := by
  cases hp : (w.sounds i).isPaused <;> cases hq : (w.sounds i).isPlaying <;>
    simp [reset, BaseSound.stop, BaseSound.resetConfig, hp, hq]
  have e : w.sounds i = { w.sounds i with
      isPlaying := (w.sounds i).isPlaying, isPaused := (w.sounds i).isPaused } := rfl
  rw [hp, hq] at e
  exact e

/-- The effect of `pickAudioTag` when it preempts the first sound `v` of the sorted list. -/
theorem pickAudioTag_preempt (w : World) (i v : Nat) (rest ts : List Nat)
    (ha : (w.sounds i).audio = none) (ht : (w.sounds i).tags = some ts)
    (hf : ∀ k, k ∈ ts → (w.audioTags k).used = true)
    (hm : (w.sounds i).manager = true) (ho : w.manager.override = true)
    (hs : sortSounds (compareSounds w) (otherSounds w i) = v :: rest) :
    ∃ w1, pickAudioTag w i = some (w1, true) ∧ v ≠ i ∧ v ∈ otherSounds w i ∧
      w1.sounds i = { w.sounds i with audio := (w.sounds v).audio } ∧
      w1.sounds v = { (reset w v).sounds v with
        audio := none, startTime := 0, previousTime := 0 } ∧
      (∀ j, j ≠ i → j ≠ v → w1.sounds j = w.sounds j) ∧
      w1.audioTags = w.audioTags ∧ w1.events = w.events ∧ w1.manager = w.manager := by
  have hv : v ∈ otherSounds w i := by
    rw [← sortSounds_mem (compareSounds w), hs]; simp
  have hvs : (w.sounds v).audio.isSome = true := ((otherSounds_mem w i v).mp hv).2.2.2
  have hvi : v ≠ i := by
    rintro rfl
    rw [ha] at hvs; simp at hvs
  have hiv : i ≠ v := fun h => hvi h.symm
  have hfn := (find_free_eq_none w ts).mpr hf
  simp only [pickAudioTag, ha, ht, hfn, hm, ho, if_true, hs, Bool.not_true, Bool.false_eq_true,
    if_false]
  refine ⟨_, rfl, hvi, hv, ?_, ?_, ?_, ?_, ?_, ?_⟩
  · simp [hiv, reset_sounds_ne _ v i hiv]
  · simp [reset_sounds_self, hvi]
  · intro j hji hjv
    simp [hji, hjv, reset_sounds_ne _ v j hjv]
  · simp
  · simp
  · simp

theorem basePlay_success (w : World) (i : Nat) (m : String) (c : SoundConfig)
    (h : (BaseSound.play w i m c).2 = true) :
    ∃ mk dur, BaseSound.play w i m c =
      (w.setSound i { w.sounds i with currentMarker := mk, duration := dur, currentConfig := c,
                                      isPlaying := true, isPaused := false }, true) := by
  unfold BaseSound.play at h ⊢
  by_cases hm : m = ""
  · exact ⟨none, (w.sounds i).totalDuration, by simp [hm]⟩
  · cases hf : (w.sounds i).markers.find? (fun x => x.name = m) with
    | none => simp [hm, hf] at h
    | some mk => exact ⟨some mk, mk.duration, by simp [hm, hf]⟩

theorem pickAudioTag_exhausted (w : World) (i : Nat) (ts : List Nat)
    (hm : (w.sounds i).manager = true)
    (ha : (w.sounds i).audio = none) (ht : (w.sounds i).tags = some ts)
    (hu : ∀ k, k ∈ ts → (w.audioTags k).used = true) (ho : w.manager.override = false) :
    pickAudioTag w i = some (w, false) := by
  simp [pickAudioTag, ha, ht, (find_free_eq_none w ts).mpr hu, hm, ho]

theorem pickAudioTag_no_victim (w : World) (i : Nat) (ts : List Nat)
    (hm : (w.sounds i).manager = true)
    (ha : (w.sounds i).audio = none) (ht : (w.sounds i).tags = some ts)
    (hu : ∀ k, k ∈ ts → (w.audioTags k).used = true) (ho : w.manager.override = true)
    (hn : otherSounds w i = []) :
    pickAudioTag w i = none := by
  simp [pickAudioTag, ha, ht, (find_free_eq_none w ts).mpr hu, hm, ho, hn, sortSounds]

theorem otherSounds_setSound (w : World) (i j : Nat) (s : Sound)
    (hk : s.key = (w.sounds i).key) (ha : s.audio = (w.sounds i).audio)
    (hp : s.pendingRemove = (w.sounds i).pendingRemove) :
    otherSounds (w.setSound i s) j = otherSounds w j := by
  unfold otherSounds forEachActiveSound
  simp only [setSound_manager, setSound_sounds, List.filter_filter]
  apply List.filter_congr
  intro x _
  by_cases hx : x = i <;> by_cases hj : j = i <;> simp [hx, hj, hk, ha, hp]

theorem pickAudioTag_true (w w1 : World) (i : Nat) (h : pickAudioTag w i = some (w1, true)) :
    ∃ k, w1.sounds i = { w.sounds i with audio := some k } ∧ w1.events = w.events ∧
      w1.manager = w.manager := by
  cases ha : (w.sounds i).audio with
  | some k =>
    rw [pickAudioTag_owned w i k ha] at h
    simp only [Option.some.injEq, Prod.mk.injEq, and_true] at h
    subst h
    refine ⟨k, ?_, rfl, rfl⟩
    rw [← ha]
  | none =>
    cases ht : (w.sounds i).tags with
    | none => simp [pickAudioTag, ha, ht] at h
    | some ts =>
      cases hf : ts.find? (fun k => !(w.audioTags k).used) with
      | some k =>
        rw [pickAudioTag_free w i k ts ha ht hf] at h
        simp only [Option.some.injEq, Prod.mk.injEq, and_true] at h
        subst h
        exact ⟨k, by simp, by simp, by simp⟩
      | none =>
        have hu := (find_free_eq_none w ts).mp hf
        cases hm : (w.sounds i).manager with
        | false => simp [pickAudioTag, ha, ht, hf, hm] at h
        | true =>
          cases ho : w.manager.override with
          | false => simp [pickAudioTag, ha, ht, hf, hm, ho] at h
          | true =>
            cases hs : sortSounds (compareSounds w) (otherSounds w i) with
            | nil => simp [pickAudioTag, ha, ht, hf, hm, ho, hs] at h
            | cons v rest =>
              obtain ⟨w2, h2, _, hv, hi, _, _, _, hev, hmg⟩ :=
                pickAudioTag_preempt w i v rest ts ha ht hu hm ho hs
              rw [h2] at h
              simp only [Option.some.injEq, Prod.mk.injEq, and_true] at h
              subst h
              have hvs := ((otherSounds_mem w i v).mp hv).2.2.2
              obtain ⟨k, hk⟩ := Option.isSome_iff_exists.mp hvs
              exact ⟨k, by rw [hi, hk], hev, hmg⟩

/-! ## Preservation of the pool and delayed-start invariants -/

theorem Move.pool_step {w w1 : World} (m : Move w w1) (hinv : Pool w) : Pool w1 := by
  cases m with
  | frame haud hst hused hpaused =>
    exact
    { used_of_held := fun i h hi => by
        rw [hused]; exact hinv.used_of_held i h (by rw [← haud]; exact hi)
      held_unique := fun i j h hi hj =>
        hinv.held_unique i j h (by rw [← haud]; exact hi) (by rw [← haud]; exact hj)
      held_of_used := fun h hu => by
        obtain ⟨i, hi⟩ := hinv.held_of_used h (by rw [← hused]; exact hu)
        exact ⟨i, by rw [haud]; exact hi⟩ }
  | touch i haud hst hused hpaused harm =>
    exact
    { used_of_held := fun j h hj => by
        rw [hused]; exact hinv.used_of_held j h (by rw [← haud]; exact hj)
      held_unique := fun j k h hj hk =>
        hinv.held_unique j k h (by rw [← haud]; exact hj) (by rw [← haud]; exact hk)
      held_of_used := fun h hu => by
        obtain ⟨j, hj⟩ := hinv.held_of_used h (by rw [← hused]; exact hu)
        exact ⟨j, by rw [haud]; exact hj⟩ }
  | release i h ha hi hi0 haud hst hh hused hpaused =>
    exact
    { used_of_held := fun j k hj => by
        have hji : j ≠ i := by rintro rfl; rw [hi] at hj; exact absurd hj (by simp)
        have hj0 : (w.sounds j).audio = some k := by rw [← haud j hji]; exact hj
        have hkh : k ≠ h := by
          rintro rfl
          exact hji (hinv.held_unique j i k hj0 ha)
        rw [hused k hkh]; exact hinv.used_of_held j k hj0
      held_unique := fun j k x hj hk => by
        have hji : j ≠ i := by rintro rfl; rw [hi] at hj; exact absurd hj (by simp)
        have hki : k ≠ i := by rintro rfl; rw [hi] at hk; exact absurd hk (by simp)
        exact hinv.held_unique j k x (by rw [← haud j hji]; exact hj)
          (by rw [← haud k hki]; exact hk)
      held_of_used := fun k hu => by
        have hkh : k ≠ h := by rintro rfl; rw [hh] at hu; exact absurd hu (by simp)
        obtain ⟨j, hj⟩ := hinv.held_of_used k (by rw [← hused k hkh]; exact hu)
        have hji : j ≠ i := by
          rintro rfl
          rw [ha] at hj
          exact hkh (Option.some.inj hj).symm
        exact ⟨j, by rw [haud j hji]; exact hj⟩ }
  | acquire i h ha hf hi haud hst hh hused hpaused =>
    exact
    { used_of_held := fun j k hj => by
        by_cases hji : j = i
        · subst hji
          rw [hi] at hj
          rw [← Option.some.inj hj]; exact hh
        · have hj0 : (w.sounds j).audio = some k := by rw [← haud j hji]; exact hj
          have hk := hinv.used_of_held j k hj0
          have hkh : k ≠ h := by rintro rfl; rw [hf] at hk; exact absurd hk (by simp)
          rw [hused k hkh]; exact hk
      held_unique := fun j k x hj hk => by
        have key : ∀ a, a ≠ i → (w1.sounds a).audio = some x → x ≠ h := by
          intro a hai hax
          have h0 : (w.sounds a).audio = some x := by rw [← haud a hai]; exact hax
          have hu := hinv.used_of_held a x h0
          rintro rfl
          rw [hf] at hu; exact absurd hu (by simp)
        by_cases hji : j = i <;> by_cases hki : k = i
        · rw [hji, hki]
        · subst hji
          rw [hi] at hj
          exact absurd (Option.some.inj hj).symm (key k hki hk)
        · subst hki
          rw [hi] at hk
          exact absurd (Option.some.inj hk).symm (key j hji hj)
        · exact hinv.held_unique j k x (by rw [← haud j hji]; exact hj)
            (by rw [← haud k hki]; exact hk)
      held_of_used := fun k hu => by
        by_cases hkh : k = h
        · exact ⟨i, by rw [hkh]; exact hi⟩
        · obtain ⟨j, hj⟩ := hinv.held_of_used k (by rw [← hused k hkh]; exact hu)
          have hji : j ≠ i := by rintro rfl; rw [ha] at hj; exact absurd hj (by simp)
          exact ⟨j, by rw [haud j hji]; exact hj⟩ }
  | preempt i v h ha hv hi hi0 hv1 hv0 haud hst hused hpaused =>
    exact
    { used_of_held := fun j k hj => by
        rw [hused]
        by_cases hji : j = i
        · subst hji
          rw [hi] at hj
          rw [← Option.some.inj hj]; exact hinv.used_of_held v h hv
        · have hjv : j ≠ v := by rintro rfl; rw [hv1] at hj; exact absurd hj (by simp)
          exact hinv.used_of_held j k (by rw [← haud j hji hjv]; exact hj)
      held_unique := fun j k x hj hk => by
        have hjv : j ≠ v := by rintro rfl; rw [hv1] at hj; exact absurd hj (by simp)
        have hkv : k ≠ v := by rintro rfl; rw [hv1] at hk; exact absurd hk (by simp)
        have key : ∀ a, a ≠ i → a ≠ v → (w1.sounds a).audio = some x → x ≠ h := by
          intro a hai hav hax
          have h0 : (w.sounds a).audio = some x := by rw [← haud a hai hav]; exact hax
          rintro rfl
          exact hav (hinv.held_unique a v x h0 hv)
        by_cases hji : j = i <;> by_cases hki : k = i
        · rw [hji, hki]
        · subst hji
          rw [hi] at hj
          exact absurd (Option.some.inj hj).symm (key k hki hkv hk)
        · subst hki
          rw [hi] at hk
          exact absurd (Option.some.inj hk).symm (key j hji hjv hj)
        · exact hinv.held_unique j k x (by rw [← haud j hji hjv]; exact hj)
            (by rw [← haud k hki hkv]; exact hk)
      held_of_used := fun k hu => by
        obtain ⟨j, hj⟩ := hinv.held_of_used k (by rw [← hused k]; exact hu)
        have hji : j ≠ i := by rintro rfl; rw [ha] at hj; exact absurd hj (by simp)
        by_cases hjv : j = v
        · subst hjv
          rw [hv] at hj
          exact ⟨i, by rw [← Option.some.inj hj]; exact hi⟩
        · exact ⟨j, by rw [haud j hji hjv]; exact hj⟩ }

theorem Move.armed_step {w w1 : World} (m : Move w w1) (hinv : Pool w) (harmed : Armed w) :
    Armed w1 := by
  cases m with
  | frame haud hst hused hpaused =>
    intro i hi
    obtain ⟨h, h1, h2⟩ := harmed i (by rw [← hst]; exact hi)
    exact ⟨h, by rw [haud]; exact h1, by rw [hpaused]; exact h2⟩
  | touch i haud hst hused hpaused harm =>
    intro j hj
    by_cases hji : j = i
    · subst hji
      obtain ⟨h, h1, h2⟩ := harm hj
      exact ⟨h, by rw [haud]; exact h1, h2⟩
    · obtain ⟨h, h1, h2⟩ := harmed j (by rw [← hst j hji]; exact hj)
      refine ⟨h, by rw [haud]; exact h1, ?_⟩
      rw [hpaused h ?_]
      · exact h2
      · intro hi
        exact hji (hinv.held_unique j i h h1 hi)
  | release i h ha hi hi0 haud hst hh hused hpaused =>
    intro j hj
    have hji : j ≠ i := by
      rintro rfl; rw [hi0] at hj; exact absurd hj (lt_irrefl 0)
    obtain ⟨k, h1, h2⟩ := harmed j (by rw [← hst j hji]; exact hj)
    have hkh : k ≠ h := by
      rintro rfl
      exact hji (hinv.held_unique j i k h1 ha)
    exact ⟨k, by rw [haud j hji]; exact h1, by rw [hpaused k hkh]; exact h2⟩
  | acquire i h ha hf hi haud hst hh hused hpaused =>
    intro j hj
    obtain ⟨k, h1, h2⟩ := harmed j (by rw [← hst j]; exact hj)
    have hji : j ≠ i := by rintro rfl; rw [ha] at h1; exact absurd h1 (by simp)
    exact ⟨k, by rw [haud j hji]; exact h1, by rw [hpaused]; exact h2⟩
  | preempt i v h ha hv hi hi0 hv1 hv0 haud hst hused hpaused =>
    intro j hj
    have hjv : j ≠ v := by rintro rfl; rw [hv0] at hj; exact absurd hj (lt_irrefl 0)
    have hji : j ≠ i := by
      rintro rfl
      rw [hi0] at hj
      obtain ⟨k, h1, _⟩ := harmed j hj
      rw [ha] at h1; exact absurd h1 (by simp)
    obtain ⟨k, h1, h2⟩ := harmed j (by rw [← hst j hji hjv]; exact hj)
    exact ⟨k, by rw [haud j hji hjv]; exact h1, by rw [hpaused]; exact h2⟩

theorem Moves.pool_run {w w1 : World} (m : Moves w w1) (hinv : Pool w) : Pool w1 := by
  induction m with
  | refl => exact hinv
  | step h _ ih => exact ih (h.pool_step hinv)

theorem Moves.armed_run {w w1 : World} (m : Moves w w1) (hinv : Pool w) (harmed : Armed w) :
    Armed w1 := by
  induction m with
  | refl => exact harmed
  | step h _ ih => exact ih (h.pool_step hinv) (h.armed_step hinv harmed)

theorem Moves.trans {w w1 w2 : World} (m : Moves w w1) (n : Moves w1 w2) : Moves w w2 := by
  induction m with
  | refl => exact n
  | step h _ ih => exact Moves.step h (ih n)

theorem Move.moves {w w1 : World} (m : Move w w1) : Moves w w1 :=
  Moves.step m (Moves.refl w1)

theorem moves_setSound (w : World) (i : Nat) (s : Sound)
    (ha : s.audio = (w.sounds i).audio) (hs : s.startTime = (w.sounds i).startTime) :
    Moves w (w.setSound i s) := by
  apply Move.moves
  apply Move.frame
  · intro j; by_cases hj : j = i <;> simp [hj, ha]
  · intro j; by_cases hj : j = i <;> simp [hj, hs]
  · intro h; simp
  · intro h; simp

theorem moves_setAudio (w : World) (h : Nat) (a : AudioTag)
    (hu : a.used = (w.audioTags h).used) (hp : a.paused = (w.audioTags h).paused) :
    Moves w (w.setAudio h a) := by
  apply Move.moves
  apply Move.frame
  · intro j; simp
  · intro j; simp
  · intro k; by_cases hk : k = h <;> simp [hk, hu]
  · intro k; by_cases hk : k = h <;> simp [hk, hp]

theorem moves_emit (w : World) (n : String) (i : Nat) (v : Value) : Moves w (w.emit n i v) := by
  apply Move.moves
  apply Move.frame <;> intro j <;> simp

theorem moves_reset (w : World) (i : Nat) : Moves w (reset w i) := by
  apply Move.moves
  apply Move.frame
  · intro j
    by_cases hj : j = i
    · subst hj; rw [reset_sounds_self]
    · rw [reset_sounds_ne w i j hj]
  · intro j
    by_cases hj : j = i
    · subst hj; rw [reset_sounds_self]
    · rw [reset_sounds_ne w i j hj]
  · intro h; simp
  · intro h; simp

theorem moves_checkTouchLocked (w w1 : World) (i : Nat) (t n : String) (v : Value) (now : ℚ)
    (r : Bool) (h : checkTouchLocked w i t n v now = some (w1, r)) : Moves w w1 := by
  simp only [checkTouchLocked] at h
  split_ifs at h
  · split at h
    · exact absurd h (by simp)
    · simp only [Option.some.injEq, Prod.mk.injEq] at h
      rw [← h.1]
      exact moves_setSound w i _ rfl rfl
  · simp only [Option.some.injEq, Prod.mk.injEq] at h
    rw [← h.1]
    exact Moves.refl w

theorem moves_basePlay (w : World) (i : Nat) (m : String) (c : SoundConfig) :
    Moves w (BaseSound.play w i m c).1 := by
  simp only [BaseSound.play]
  split_ifs
  · exact moves_setSound w i _ rfl rfl
  · split
    · exact Moves.refl w
    · exact moves_setSound w i _ rfl rfl

theorem moves_basePause (w : World) (i : Nat) : Moves w (BaseSound.pause w i).1 := by
  simp only [BaseSound.pause]
  split_ifs
  · exact Moves.refl w
  · exact moves_setSound w i _ rfl rfl

theorem moves_baseResume (w : World) (i : Nat) : Moves w (BaseSound.resume w i).1 := by
  simp only [BaseSound.resume]
  split_ifs
  · exact Moves.refl w
  · exact moves_setSound w i _ rfl rfl

theorem moves_baseStop (w : World) (i : Nat) : Moves w (BaseSound.stop w i).1 :=
  moves_reset w i

theorem moves_baseDestroy (w : World) (i : Nat) : Moves w (BaseSound.destroy w i) := by
  simp only [BaseSound.destroy]
  split_ifs
  · exact Moves.refl w
  · exact moves_setSound w i _ rfl rfl

theorem moves_resetConfig (w : World) (i : Nat) : Moves w (BaseSound.resetConfig w i) :=
  moves_setSound w i _ rfl rfl

theorem moves_stopAndRelease (w w1 : World) (i : Nat)
    (h : stopAndReleaseAudioTag w i = some w1) : Moves w w1 := by
  cases ha : (w.sounds i).audio with
  | none => simp [stopAndReleaseAudioTag, ha] at h
  | some k =>
    rw [stopAndRelease_eq w i k ha] at h
    simp only [Option.some.injEq] at h
    subst h
    apply Move.moves
    apply Move.release i k ha
    · simp
    · simp
    · intro j hj; simp [hj]
    · intro j hj; simp [hj]
    · simp
    · intro x hx; simp [hx]
    · intro x hx; simp [hx]

theorem moves_pickAudioTag (w w1 : World) (i : Nat) (r : Bool)
    (h : pickAudioTag w i = some (w1, r)) : Moves w w1 := by
  cases ha : (w.sounds i).audio with
  | some k =>
    rw [pickAudioTag_owned w i k ha] at h
    simp only [Option.some.injEq, Prod.mk.injEq] at h
    rw [← h.1]; exact Moves.refl w
  | none =>
    cases ht : (w.sounds i).tags with
    | none => simp [pickAudioTag, ha, ht] at h
    | some ts =>
      cases hf : ts.find? (fun k => !(w.audioTags k).used) with
      | some k =>
        rw [pickAudioTag_free w i k ts ha ht hf] at h
        simp only [Option.some.injEq, Prod.mk.injEq] at h
        rw [← h.1]
        have hu : (w.audioTags k).used = false := by simpa using List.find?_some hf
        apply Move.moves
        apply Move.acquire i k ha hu
        · simp
        · intro j hj; simp [hj]
        · intro j; by_cases hj : j = i <;> simp [hj]
        · simp
        · intro x hx; simp [hx]
        · intro x; by_cases hx : x = k <;> simp [hx]
      | none =>
        have hu := (find_free_eq_none w ts).mp hf
        cases hm : (w.sounds i).manager with
        | false => simp [pickAudioTag, ha, ht, hf, hm] at h
        | true =>
          cases ho : w.manager.override with
          | false =>
            rw [pickAudioTag_exhausted w i ts hm ha ht hu ho] at h
            simp only [Option.some.injEq, Prod.mk.injEq] at h
            rw [← h.1]; exact Moves.refl w
          | true =>
            cases hs : sortSounds (compareSounds w) (otherSounds w i) with
            | nil => simp [pickAudioTag, ha, ht, hf, hm, ho, hs] at h
            | cons v rest =>
              obtain ⟨w2, h2, hvi, hv, hi, hvv, hothers, hat, _, _⟩ :=
                pickAudioTag_preempt w i v rest ts ha ht hu hm ho hs
              rw [h2] at h
              simp only [Option.some.injEq, Prod.mk.injEq] at h
              rw [← h.1]
              have hvs := ((otherSounds_mem w i v).mp hv).2.2.2
              obtain ⟨k, hk⟩ := Option.isSome_iff_exists.mp hvs
              apply Move.moves
              apply Move.preempt i v k ha hk
              · rw [hi, hk]
              · rw [hi]
              · rw [hvv]
              · rw [hvv]
              · intro j hji hjv; rw [hothers j hji hjv]
              · intro j hji hjv; rw [hothers j hji hjv]
              · intro x; rw [hat]
              · intro x; rw [hat]

theorem applyConfig_without_manager (w : World) (i h : Nat)
    (hm : (w.sounds i).manager = false) (ha : (w.sounds i).audio = some h) :
    BaseSound.applyConfig w i = none := by
  simp [BaseSound.applyConfig, setMute, hm, ha]

theorem moves_pickAndPlay (w w2 : World) (i : Nat) (now : ℚ) (r : Bool)
    (h : pickAndPlayAudioTag w i now = some (w2, r)) : Moves w w2 := by
  cases hp : pickAudioTag w i with
  | none => simp [pickAndPlayAudioTag, hp] at h
  | some p =>
    obtain ⟨w1, b⟩ := p
    have m1 := moves_pickAudioTag w w1 i b hp
    cases b with
    | false =>
      simp only [pickAndPlayAudioTag, hp, Option.some.injEq, Prod.mk.injEq] at h
      rw [← h.1]
      exact m1.trans (moves_reset w1 i)
    | true =>
      obtain ⟨k, hk, _, _⟩ := pickAudioTag_true w w1 i hp
      have hak : (w1.sounds i).audio = some k := by rw [hk]
      cases hm : (w1.sounds i).manager with
      | false =>
        simp only [pickAndPlayAudioTag, hp, setSound_sounds, if_true, hak,
          setSound_audioTags] at h
        rw [applyConfig_without_manager _ i k (by simp [hm]) (by simp [hak])] at h
        exact absurd h (by simp)
      | true =>
        obtain ⟨w3, h3, hs, hat, hso, hao, _, _⟩ := pickAndPlay_of_pick w w1 i k now hp hm hak
        rw [h3] at h
        simp only [Option.some.injEq, Prod.mk.injEq] at h
        rw [← h.1]
        refine m1.trans (Move.moves (Move.touch i ?_ ?_ ?_ ?_ ?_))
        · intro j
          by_cases hj : j = i
          · subst hj; rw [hs]
          · rw [hso j hj]
        · intro j hj; rw [hso j hj]
        · intro x
          by_cases hx : x = k
          · subst hx; rw [hat]
          · rw [hao x hx]
        · intro x hx
          have hxk : x ≠ k := by
            rintro rfl
            exact hx hak
          rw [hao x hxk]
        · intro harm
          refine ⟨k, hak, ?_⟩
          rw [hs] at harm
          by_cases hd : (w1.sounds i).currentConfig.delay = 0
          · simp [hd] at harm
          · rw [hat]; simp [hd]

theorem moves_play (w w1 : World) (i : Nat) (m : String) (c : SoundConfig) (now : ℚ) (r : Bool)
    (h : play w i m c now = some (w1, r)) : Moves w w1 := by
  cases h1 : checkTouchLocked w i "method" "play" (Value.playArgs m c) now with
  | none => simp [play, h1] at h
  | some p1 =>
    obtain ⟨wa, b1⟩ := p1
    have m1 := moves_checkTouchLocked w wa i _ _ _ now b1 h1
    cases b1 with
    | true =>
      simp only [play, h1, Option.some.injEq, Prod.mk.injEq] at h
      rw [← h.1]; exact m1
    | false =>
      have m2 := moves_basePlay wa i m c
      cases h2 : BaseSound.play wa i m c with
      | mk wb b2 =>
        rw [h2] at m2
        cases b2 with
        | false =>
          simp only [play, h1, h2, Option.some.injEq, Prod.mk.injEq] at h
          rw [← h.1]; exact m1.trans m2
        | true =>
          cases h3 : pickAndPlayAudioTag wb i now with
          | none => simp [play, h1, h2, h3] at h
          | some p3 =>
            obtain ⟨wc, b3⟩ := p3
            have m3 := moves_pickAndPlay wb wc i now b3 h3
            cases b3 with
            | false =>
              simp only [play, h1, h2, h3, Option.some.injEq, Prod.mk.injEq] at h
              rw [← h.1]; exact (m1.trans m2).trans m3
            | true =>
              simp only [play, h1, h2, h3, Option.some.injEq, Prod.mk.injEq] at h
              rw [← h.1]; exact ((m1.trans m2).trans m3).trans (moves_emit wc _ _ _)

theorem moves_resume (w w1 : World) (i : Nat) (now : ℚ) (r : Bool)
    (h : resume w i now = some (w1, r)) : Moves w w1 := by
  cases h1 : checkTouchLocked w i "method" "resume" Value.undefined now with
  | none => simp [resume, h1] at h
  | some p1 =>
    obtain ⟨wa, b1⟩ := p1
    have m1 := moves_checkTouchLocked w wa i _ _ _ now b1 h1
    cases b1 with
    | true =>
      simp only [resume, h1, Option.some.injEq, Prod.mk.injEq] at h
      rw [← h.1]; exact m1
    | false =>
      by_cases hs : (wa.sounds i).startTime > 0
      · simp only [resume, h1, hs, if_true, Option.some.injEq, Prod.mk.injEq] at h
        rw [← h.1]; exact m1
      · have m2 := moves_baseResume wa i
        cases h2 : BaseSound.resume wa i with
        | mk wb b2 =>
          rw [h2] at m2
          cases b2 with
          | false =>
            simp only [resume, h1, hs, if_false, h2, Option.some.injEq, Prod.mk.injEq] at h
            rw [← h.1]; exact m1.trans m2
          | true =>
            cases h3 : pickAndPlayAudioTag wb i now with
            | none => simp [resume, h1, hs, h2, h3] at h
            | some p3 =>
              obtain ⟨wc, b3⟩ := p3
              have m3 := moves_pickAndPlay wb wc i now b3 h3
              cases b3 with
              | false =>
                simp only [resume, h1, hs, if_false, h2, h3, Option.some.injEq,
                  Prod.mk.injEq] at h
                rw [← h.1]; exact (m1.trans m2).trans m3
              | true =>
                simp only [resume, h1, hs, if_false, h2, h3, Option.some.injEq,
                  Prod.mk.injEq] at h
                rw [← h.1]; exact ((m1.trans m2).trans m3).trans (moves_emit wc _ _ _)

theorem moves_pause (w w1 : World) (i : Nat) (now : ℚ) (r : Bool)
    (h : pause w i now = some (w1, r)) : Moves w w1 := by
  cases h1 : checkTouchLocked w i "method" "pause" Value.undefined now with
  | none => simp [pause, h1] at h
  | some p1 =>
    obtain ⟨wa, b1⟩ := p1
    have m1 := moves_checkTouchLocked w wa i _ _ _ now b1 h1
    cases b1 with
    | true =>
      simp only [pause, h1, Option.some.injEq, Prod.mk.injEq] at h
      rw [← h.1]; exact m1
    | false =>
      by_cases hs : (wa.sounds i).startTime > 0
      · simp only [pause, h1, hs, if_true, Option.some.injEq, Prod.mk.injEq] at h
        rw [← h.1]; exact m1
      · have m2 := moves_basePause wa i
        cases h2 : BaseSound.pause wa i with
        | mk wb b2 =>
          rw [h2] at m2
          cases b2 with
          | false =>
            simp only [pause, h1, hs, if_false, h2, Option.some.injEq, Prod.mk.injEq] at h
            rw [← h.1]; exact m1.trans m2
          | true =>
            cases ha : (wb.sounds i).audio with
            | none => simp [pause, h1, hs, h2, ha] at h
            | some k =>
              simp only [pause, h1, hs, if_false, h2, ha] at h
              split at h
              · exact absurd h (by simp)
              · rename_i wd hd
                simp only [Option.some.injEq, Prod.mk.injEq] at h
                rw [← h.1]
                have ms := moves_stopAndRelease _ wd i hd
                refine (((m1.trans m2).trans ?_).trans ms).trans (moves_emit wd _ _ _)
                apply moves_setSound <;> simp [ha]

theorem moves_stop (w w1 : World) (i : Nat) (now : ℚ) (r : Bool)
    (h : stop w i now = some (w1, r)) : Moves w w1 := by
  cases h1 : checkTouchLocked w i "method" "stop" Value.undefined now with
  | none => simp [stop, h1] at h
  | some p1 =>
    obtain ⟨wa, b1⟩ := p1
    have m1 := moves_checkTouchLocked w wa i _ _ _ now b1 h1
    cases b1 with
    | true =>
      simp only [stop, h1, Option.some.injEq, Prod.mk.injEq] at h
      rw [← h.1]; exact m1
    | false =>
      have m2 := moves_baseStop wa i
      cases h2 : BaseSound.stop wa i with
      | mk wb b2 =>
        rw [h2] at m2
        cases b2 with
        | false =>
          simp only [stop, h1, h2, Option.some.injEq, Prod.mk.injEq] at h
          rw [← h.1]; exact m1.trans m2
        | true =>
          cases h3 : stopAndReleaseAudioTag wb i with
          | none => simp [stop, h1, h2, h3] at h
          | some wc =>
            simp only [stop, h1, h2, h3, Option.some.injEq, Prod.mk.injEq] at h
            rw [← h.1]
            exact ((m1.trans m2).trans (moves_stopAndRelease wb wc i h3)).trans
              (moves_emit wc _ _ _)

theorem moves_onBlur (w w1 : World) (i : Nat) (now : ℚ)
    (h : onBlur w i now = some w1) : Moves w w1 := by
  cases ha : (w.sounds i).audio with
  | none => simp [onBlur, ha] at h
  | some k =>
    rw [onBlur_eq w i k now ha] at h
    simp only [Option.some.injEq] at h
    rw [← h]
    apply Move.moves
    apply Move.release i k ha
    · simp
    · simp
    · intro j hj; simp [hj]
    · intro j hj; simp [hj]
    · simp
    · intro x hx; simp [hx]
    · intro x hx; simp [hx]

theorem moves_onFocus (w w1 : World) (i : Nat) (now : ℚ)
    (h : onFocus w i now = some w1) : Moves w w1 := by
  simp only [onFocus] at h
  split at h
  · exact absurd h (by simp)
  · rename_i w3 b hp
    simp only [Option.some.injEq] at h
    rw [← h]
    have mp := moves_pickAndPlay _ w3 i now b hp
    refine Moves.trans (Move.moves (Move.frame ?_ ?_ ?_ ?_)) mp
    · intro j; by_cases hj : j = i <;> simp [hj]
    · intro j; by_cases hj : j = i <;> simp [hj]
    · intro x; simp
    · intro x; simp

theorem moves_destroy (w w1 : World) (i : Nat) (h : destroy w i = some w1) : Moves w w1 := by
  have m1 := moves_baseDestroy w i
  have m2 : Moves (BaseSound.destroy w i)
      ((BaseSound.destroy w i).setSound i { (BaseSound.destroy w i).sounds i with tags := none }) :=
    moves_setSound _ i _ rfl rfl
  simp only [destroy] at h
  split at h
  · exact (m1.trans m2).trans (moves_stopAndRelease _ w1 i h)
  · simp only [Option.some.injEq] at h
    rw [← h]; exact m1.trans m2

theorem moves_setSeek (w w1 : World) (i : Nat) (v : ℚ) (h : setSeek w i v = some w1) :
    Moves w w1 := by
  simp only [setSeek] at h
  split_ifs at h
  · simp only [Option.some.injEq] at h
    rw [← h]; exact Moves.refl w
  · split at h
    · exact absurd h (by simp)
    · rename_i k hk
      simp only [Option.some.injEq] at h
      rw [← h]
      apply Move.moves
      apply Move.frame
      · intro j; by_cases hj : j = i <;> simp [hj]
      · intro j; by_cases hj : j = i <;> simp [hj]
      · intro x; by_cases hx : x = k <;> simp [hx]
      · intro x; by_cases hx : x = k <;> simp [hx]
  · simp only [Option.some.injEq] at h
    rw [← h]
    apply Move.moves
    apply Move.frame
    · intro j; by_cases hj : j = i <;> simp [hj]
    · intro j; by_cases hj : j = i <;> simp [hj]
    · intro x; simp
    · intro x; simp
  · simp only [Option.some.injEq] at h
    rw [← h]; exact Moves.refl w

theorem moves_update (w w1 : World) (i : Nat) (t : ℚ) (h : update w i t = some w1) :
    Moves w w1 := by
  cases hp : (w.sounds i).isPlaying with
  | false =>
    rw [update_not_playing w i t hp] at h
    simp only [Option.some.injEq] at h
    rw [← h]; exact Moves.refl w
  | true =>
    by_cases hs : (w.sounds i).startTime > 0
    · cases hm : (w.sounds i).manager with
      | false => simp [update, hp, hs, hm] at h
      | true =>
        by_cases hlt : (w.sounds i).startTime < t - w.manager.audioPlayDelay
        · cases ha : (w.sounds i).audio with
          | none => simp [update, hp, hs, hm, hlt, ha] at h
          | some k =>
            simp only [update, hp, hs, hm, hlt, if_true, ha, Option.some.injEq] at h
            rw [← h]
            apply Move.moves
            apply Move.touch i
            · intro j; by_cases hj : j = i <;> simp [World.audioPlay, hj]
            · intro j hj; simp [World.audioPlay, hj]
            · intro x; by_cases hx : x = k <;> simp [World.audioPlay, hx]
            · intro x hx
              have hxk : x ≠ k := by
                rintro rfl
                exact hx ha
              simp [World.audioPlay, hxk]
            · intro harm
              simp [World.audioPlay] at harm
        · simp only [update, hp, hs, hm, hlt, if_true, if_false, Option.some.injEq] at h
          rw [← h]; exact Moves.refl w
    · cases ha : (w.sounds i).audio with
      | none => simp [update, hp, hs, ha] at h
      | some k =>
        cases hl : (w.sounds i).currentConfig.loop with
        | true =>
          cases hm : (w.sounds i).manager with
          | false => simp [update, hp, hs, ha, hl, hm] at h
          | true =>
            simp only [update, hp, hs, ha, hl, hm, if_true, if_false, Option.some.injEq] at h
            rw [← h]
            apply Move.moves
            apply Move.frame
            · intro j; by_cases hj : j = i <;> split_ifs <;> simp [hj]
            · intro j; by_cases hj : j = i <;> split_ifs <;> simp [hj]
            · intro x; by_cases hx : x = k <;> split_ifs <;> simp [hx]
            · intro x; by_cases hx : x = k <;> split_ifs <;> simp [hx]
        | false =>
          by_cases hge : (w.audioTags k).currentTime ≥ markerStart (w.sounds i) + (w.sounds i).duration
          · simp only [update, hp, hs, ha, hl, hge, if_true, if_false, Bool.false_eq_true] at h
            split at h
            · exact absurd h (by simp)
            · rename_i w2 h2
              simp only [Option.some.injEq] at h
              rw [← h]
              exact ((moves_reset w i).trans (moves_stopAndRelease _ w2 i h2)).trans
                (moves_emit _ _ _ _)
          · simp only [update, hp, hs, ha, hl, hge, if_true, if_false, Bool.false_eq_true,
              Option.some.injEq] at h
            rw [← h]
            apply Move.moves
            apply Move.frame
            · intro j; by_cases hj : j = i <;> simp [hj, ha]
            · intro j; by_cases hj : j = i <;> simp [hj]
            · intro x; simp
            · intro x; simp

theorem moves_step (w w1 : World) (c : Call) (h : step w c = some w1) : Moves w w1 := by
  cases c with
  | play i m cfg now =>
    simp only [step, Option.map_eq_some', Prod.exists, exists_and_right, exists_eq_right] at h
    obtain ⟨r, hr⟩ := h
    exact moves_play w w1 i m cfg now r hr
  | pause i now =>
    simp only [step, Option.map_eq_some', Prod.exists, exists_and_right, exists_eq_right] at h
    obtain ⟨r, hr⟩ := h
    exact moves_pause w w1 i now r hr
  | resume i now =>
    simp only [step, Option.map_eq_some', Prod.exists, exists_and_right, exists_eq_right] at h
    obtain ⟨r, hr⟩ := h
    exact moves_resume w w1 i now r hr
  | stop i now =>
    simp only [step, Option.map_eq_some', Prod.exists, exists_and_right, exists_eq_right] at h
    obtain ⟨r, hr⟩ := h
    exact moves_stop w w1 i now r hr
  | update i t => exact moves_update w w1 i t h
  | onBlur i now => exact moves_onBlur w w1 i now h
  | onFocus i now => exact moves_onFocus w w1 i now h
  | destroy i => exact moves_destroy w w1 i h
  | setSeek i v => exact moves_setSeek w w1 i v h

theorem moves_run (calls : List Call) (w w1 : World) (h : run w calls = some w1) :
    Moves w w1 := by
  induction calls generalizing w with
  | nil =>
    simp only [run, Option.some.injEq] at h
    rw [← h]; exact Moves.refl w
  | cons c cs ih =>
    simp only [run] at h
    split at h
    · exact absurd h (by simp)
    · rename_i w2 h2
      exact (moves_step w w2 c h2).trans (ih w2 h)

theorem pool_of_fresh (w : World) (hfree : ∀ h, (w.audioTags h).used = false)
    (hnone : ∀ i, (w.sounds i).audio = none) : Pool w where
  used_of_held := fun i h hi => by rw [hnone] at hi; exact absurd hi (by simp)
  held_unique := fun i j h hi _ => by rw [hnone] at hi; exact absurd hi (by simp)
  held_of_used := fun h hu => by rw [hfree] at hu; exact absurd hu (by simp)

/-! ## The claims -/

/-- C1. Pool exclusivity is an invariant: from a state in which every handle is free and no
sound holds a handle, after any sequence of `play`, `pause`, `resume`, `stop`, `update`,
`onBlur`, `onFocus`, `destroy` calls and `seek` writes in which no call raises, a handle is
marked used if and only if exactly one sound holds it. -/
theorem pool_exclusivity (w0 w : World) (calls : List Call)
    (hfree : ∀ h, (w0.audioTags h).used = false)
    (hnone : ∀ i, (w0.sounds i).audio = none)
    (hrun : run w0 calls = some w) :
    ∀ h, (w.audioTags h).used = true ↔ ∃! i, (w.sounds i).audio = some h := by
  have hp : Pool w := (moves_run calls w0 w hrun).pool_run (pool_of_fresh w0 hfree hnone)
  intro h
  constructor
  · intro hu
    obtain ⟨i, hi⟩ := hp.held_of_used h hu
    exact ⟨i, hi, fun j hj => hp.held_unique j i h hj hi⟩
  · rintro ⟨i, hi, _⟩
    exact hp.used_of_held i h hi

/-- The theorem of C1 at the run `exCalls`, in which sound 2 preempts sound 1 at the fourth
call. -/
theorem pool_exclusivity_witness :
    (∀ h, (exFresh.audioTags h).used = false) ∧ (∀ i, (exFresh.sounds i).audio = none) ∧
    (run exFresh (exCalls.take 4)).map (fun w => (w.sounds 1).audio) = some none ∧
    (run exFresh (exCalls.take 4)).map (fun w => (w.sounds 2).audio) = some (some 1) ∧
    ∃ w, run exFresh exCalls = some w ∧
      ∀ h, (w.audioTags h).used = true ↔ ∃! i, (w.sounds i).audio = some h :=
  ⟨fun _ => rfl, fun _ => rfl, by decide!, by decide!,
    let ⟨w, hw⟩ := Option.isSome_iff_exists.mp
      (show (run exFresh exCalls).isSome = true by decide!);
    ⟨w, hw, pool_exclusivity exFresh w exCalls (fun _ => rfl) (fun _ => rfl) hw⟩⟩

/-- C2. Preemption victim selection: for every non-empty list of candidates (each with
positive duration) the first element of the sorted list, which `pickAudioTag` selects, is a
candidate; it does not loop if some candidate does not loop; and no candidate with the same
loop flag has a strictly greater progress fraction `seek / duration`. -/
theorem victim_selection (w : World) (cands : List Nat) (hne : cands ≠ [])
    (hdur : ∀ j, j ∈ cands → 0 < (w.sounds j).duration) :
    ∃ v rest, sortSounds (compareSounds w) cands = v :: rest ∧ v ∈ cands ∧
      ((∃ j, j ∈ cands ∧ (w.sounds j).currentConfig.loop = false) →
        (w.sounds v).currentConfig.loop = false) ∧
      (∀ j, j ∈ cands → (w.sounds j).currentConfig.loop = (w.sounds v).currentConfig.loop →
        seekValue w (w.sounds j) / (w.sounds j).duration ≤
          seekValue w (w.sounds v) / (w.sounds v).duration) := by
  obtain ⟨v, rest, hs, hv, hmin⟩ := compareSounds_head w cands hne
  refine ⟨v, rest, hs, hv, ?_, ?_⟩
  · rintro ⟨j, hj, hl⟩
    rcases (compareSounds_le_iff w v j).mp (hmin j hj) with ⟨h1, _⟩ | ⟨h1, _⟩
    · rw [h1, hl]
    · exact h1
  · intro j hj hl
    rcases (compareSounds_le_iff w v j).mp (hmin j hj) with ⟨_, h2⟩ | ⟨h1, h2⟩
    · exact h2
    · rw [h1, h2] at hl; exact absurd hl (by decide)

/-- The theorem of C2 at the three candidates of the spec: not looping with progress 0.9,
looping with 0.1, not looping with 0.2. The sorted list is `[0, 2, 1]`; the victim is
sound 0. -/
theorem victim_selection_witness :
    otherSounds exThree 3 = [0, 1, 2] ∧
    (∀ j, j ∈ [0, 1, 2] → 0 < (exThree.sounds j).duration) ∧
    (exThree.sounds 0).currentConfig.loop = false ∧
    seekValue exThree (exThree.sounds 0) / (exThree.sounds 0).duration = 9 / 10 ∧
    (exThree.sounds 1).currentConfig.loop = true ∧
    seekValue exThree (exThree.sounds 1) / (exThree.sounds 1).duration = 1 / 10 ∧
    (exThree.sounds 2).currentConfig.loop = false ∧
    seekValue exThree (exThree.sounds 2) / (exThree.sounds 2).duration = 2 / 10 ∧
    sortSounds (compareSounds exThree) (otherSounds exThree 3) = [0, 2, 1] ∧
    ∃ v rest, sortSounds (compareSounds exThree) [0, 1, 2] = v :: rest ∧
      (exThree.sounds v).currentConfig.loop = false :=
  ⟨by decide, by decide, rfl, by decide!, rfl, by decide!, rfl, by decide!, by decide!,
    let ⟨v, rest, h1, _, h3, _⟩ := victim_selection exThree [0, 1, 2] (by decide) (by decide)
    ⟨v, rest, h1, h3 ⟨0, by decide, rfl⟩⟩⟩

/-- C3. Acquisition of a free handle: a sound that already owns a handle gets `true` and the
same world; a sound without one, whose handle list holds a free handle, gets `true`, is bound
to the first free handle of the list (every handle before it is in use), that handle
becomes used, and every other audio element, every other sound and the log are unchanged. -/
theorem pickAudioTag_acquires_free (w : World) (i : Nat) :
    (∀ h, (w.sounds i).audio = some h → pickAudioTag w i = some (w, true)) ∧
    (∀ ts, (w.sounds i).audio = none → (w.sounds i).tags = some ts →
      (∃ k, k ∈ ts ∧ (w.audioTags k).used = false) →
      ∃ w1 h before after, pickAudioTag w i = some (w1, true) ∧
        ts = before ++ h :: after ∧ (∀ k, k ∈ before → (w.audioTags k).used = true) ∧
        (w.audioTags h).used = false ∧
        w1.sounds i = { w.sounds i with audio := some h } ∧
        w1.audioTags h = { w.audioTags h with used := true } ∧
        (∀ k, k ≠ h → w1.audioTags k = w.audioTags k) ∧
        (∀ j, j ≠ i → w1.sounds j = w.sounds j) ∧
        w1.events = w.events ∧ w1.manager = w.manager) := by
  constructor
  · intro h ha
    simp [pickAudioTag, ha]
  · intro ts ha ht hfree
    obtain ⟨h, hf, _, hu⟩ := exists_find_free w ts hfree
    obtain ⟨_, before, after, hsplit, hbefore⟩ := List.find?_eq_some.mp hf
    refine ⟨_, h, before, after, pickAudioTag_free w i h ts ha ht hf, hsplit, ?_, hu,
      by simp, by simp, ?_, ?_, by simp, by simp⟩
    · intro k hk
      simpa using hbefore k hk
    · intro k hk; simp [hk]
    · intro j hj; simp [hj]

/-- The theorem of C3 at a concrete state: handle 0 is taken by sound 0, sound 1 gets
handle 1. -/
theorem pickAudioTag_acquires_free_witness :
    (∃ w1, pickAudioTag (exPlaying 3) 1 = some (w1, true) ∧ (w1.sounds 1).audio = some 1 ∧
      (w1.audioTags 1).used = true ∧ (w1.audioTags 0).used = true ∧
      w1.sounds 0 = (exPlaying 3).sounds 0) ∧
    pickAudioTag (exPlaying 3) 0 = some (exPlaying 3, true) :=
  ⟨let ⟨w1, h, before, after, h1, h2, h3, h4, h5, h6, h7, h8, _⟩ :=
      (pickAudioTag_acquires_free (exPlaying 3) 1).2 [0, 1] rfl rfl ⟨1, by decide, rfl⟩
    have hh : h = 1 := by
      have h0 : h ≠ 0 := by
        rintro rfl
        exact absurd h4 (by decide)
      have hm : h ∈ [0, 1] := by rw [h2]; simp
      simp at hm
      rcases hm with rfl | rfl
      · exact absurd rfl h0
      · rfl
    ⟨w1, h1, by rw [h5, hh], by rw [← hh, h6], by rw [h7 0 (by rw [hh]; decide)]; rfl,
      h8 0 (by decide)⟩,
   (pickAudioTag_acquires_free (exPlaying 3) 0).1 0 rfl⟩

/-- C4. Pool exhaustion with preemption disabled: for an unlocked sound without a handle, when
every handle of its list is in use and `manager.override` is false, `play` (once the base
transition has accepted the marker name) and `resume` (from Paused, where `startTime` is not
positive) return `false`, emit nothing, leave the sound Idle without a handle, and change no
audio element and no other sound. -/
theorem pool_exhausted_without_override (w : World) (i : Nat) (ts : List Nat)
    (markerName : String) (config : SoundConfig) (now : ℚ)
    (hm : (w.sounds i).manager = true) (hl : w.manager.touchLocked = false)
    (ha : (w.sounds i).audio = none) (ht : (w.sounds i).tags = some ts)
    (hu : ∀ k, k ∈ ts → (w.audioTags k).used = true) (ho : w.manager.override = false) :
    ((BaseSound.play w i markerName config).2 = true →
      ∃ w1, play w i markerName config now = some (w1, false) ∧ w1.events = w.events ∧
        (w1.sounds i).isPlaying = false ∧ (w1.sounds i).isPaused = false ∧
        (w1.sounds i).audio = none ∧ w1.audioTags = w.audioTags ∧
        ∀ j, j ≠ i → w1.sounds j = w.sounds j) ∧
    ((w.sounds i).isPaused = true → (w.sounds i).isPlaying = false →
      (w.sounds i).startTime ≤ 0 →
      ∃ w1, resume w i now = some (w1, false) ∧ w1.events = w.events ∧
        (w1.sounds i).isPlaying = false ∧ (w1.sounds i).isPaused = false ∧
        (w1.sounds i).audio = none ∧ w1.audioTags = w.audioTags ∧
        ∀ j, j ≠ i → w1.sounds j = w.sounds j) := by
  constructor
  · intro hb
    obtain ⟨mk, dur, hbp⟩ := basePlay_success w i markerName config hb
    have hpick := pickAudioTag_exhausted
      (w.setSound i { w.sounds i with
        currentMarker := mk, duration := dur,
        currentConfig := config, isPlaying := true, isPaused := false }) i ts
      (by simp [hm]) (by simp [ha]) (by simp [ht]) (by simpa using hu) (by simpa using ho)
    simp only [play, checkTouchLocked_unlocked w i _ _ _ now hm hl, hbp, pickAndPlayAudioTag,
      hpick]
    refine ⟨_, rfl, by simp, ?_, ?_, ?_, by simp, ?_⟩
    · simp [reset_sounds_self]
    · simp [reset_sounds_self]
    · simp [reset_sounds_self, ha]
    · intro j hj; simp [reset_sounds_ne _ i j hj, hj]
  · intro hp hq hs
    have hbase : BaseSound.resume w i =
        (w.setSound i { w.sounds i with isPlaying := true, isPaused := false }, true) := by
      simp [BaseSound.resume, hp, hq]
    have hs2 : ¬ (w.sounds i).startTime > 0 := not_lt.mpr hs
    have hpick := pickAudioTag_exhausted
      (w.setSound i { w.sounds i with isPlaying := true, isPaused := false }) i ts
      (by simp [hm]) (by simp [ha]) (by simp [ht]) (by simpa using hu) (by simpa using ho)
    simp only [resume, checkTouchLocked_unlocked w i _ _ _ now hm hl, hs2, if_false, hbase,
      pickAndPlayAudioTag, hpick]
    refine ⟨_, rfl, by simp, ?_, ?_, ?_, by simp, ?_⟩
    · simp [reset_sounds_self]
    · simp [reset_sounds_self]
    · simp [reset_sounds_self, ha]
    · intro j hj; simp [reset_sounds_ne _ i j hj, hj]

/-- The theorem of C4 at a concrete state: both handles are taken, sound 2 is paused. -/
theorem pool_exhausted_without_override_witness :
    (exFull.sounds 2).audio = none ∧ (exFull.sounds 2).tags = some [0, 1] ∧
    (∀ k, k ∈ [0, 1] → (exFull.audioTags k).used = true) ∧
    exFull.manager.override = false ∧
    (∃ w1, play exFull 2 "" exConfig 50 = some (w1, false) ∧ (w1.sounds 2).isPaused = false) ∧
    (∃ w1, resume exFull 2 50 = some (w1, false) ∧ (w1.sounds 2).isPaused = false) :=
  ⟨rfl, rfl, by decide, rfl,
    let ⟨w1, h1, _, _, h4, _⟩ :=
      (pool_exhausted_without_override exFull 2 [0, 1] "" exConfig 50 rfl rfl rfl rfl
        (by decide) rfl).1 rfl
    ⟨w1, h1, h4⟩,
    let ⟨w1, h1, _, _, h4, _⟩ :=
      (pool_exhausted_without_override exFull 2 [0, 1] "" exConfig 50 rfl rfl rfl rfl
        (by decide) rfl).2 rfl rfl (by decide)
    ⟨w1, h1, h4⟩⟩

/-- C5. Pool exhaustion without a victim raises: for an unlocked sound without a handle, when
every handle of its list is in use, `manager.override` is true and no other active sound of
the key holds a handle, `play` and `resume` do not return `false`: `pickAudioTag` reads
`selectedSound.audio` on `undefined`, a `TypeError`. -/
theorem no_victim_raises (w : World) (i : Nat) (ts : List Nat)
    (markerName : String) (config : SoundConfig) (now : ℚ)
    (hm : (w.sounds i).manager = true) (hl : w.manager.touchLocked = false)
    (ha : (w.sounds i).audio = none) (ht : (w.sounds i).tags = some ts)
    (hu : ∀ k, k ∈ ts → (w.audioTags k).used = true) (ho : w.manager.override = true)
    (hn : otherSounds w i = []) :
    ((BaseSound.play w i markerName config).2 = true →
      play w i markerName config now = none) ∧
    ((w.sounds i).isPaused = true → (w.sounds i).isPlaying = false →
      (w.sounds i).startTime ≤ 0 → resume w i now = none) := by
  constructor
  · intro hb
    obtain ⟨mk, dur, hbp⟩ := basePlay_success w i markerName config hb
    have hpick := pickAudioTag_no_victim
      (w.setSound i { w.sounds i with
        currentMarker := mk, duration := dur,
        currentConfig := config, isPlaying := true, isPaused := false }) i ts
      (by simp [hm]) (by simp [ha]) (by simp [ht]) (by simpa using hu) (by simpa using ho)
      (by simpa [otherSounds_setSound] using hn)
    simp only [play, checkTouchLocked_unlocked w i _ _ _ now hm hl, hbp, pickAndPlayAudioTag,
      hpick]
  · intro hp hq hs
    have hbase : BaseSound.resume w i =
        (w.setSound i { w.sounds i with isPlaying := true, isPaused := false }, true) := by
      simp [BaseSound.resume, hp, hq]
    have hs2 : ¬ (w.sounds i).startTime > 0 := not_lt.mpr hs
    have hpick := pickAudioTag_no_victim
      (w.setSound i { w.sounds i with isPlaying := true, isPaused := false }) i ts
      (by simp [hm]) (by simp [ha]) (by simp [ht]) (by simpa using hu) (by simpa using ho)
      (by simpa [otherSounds_setSound] using hn)
    simp only [resume, checkTouchLocked_unlocked w i _ _ _ now hm hl, hs2, if_false, hbase,
      pickAndPlayAudioTag, hpick]

/-- The theorem of C5 at a concrete state: the two handles are held by sounds that the
manager does not enumerate. The same happens in a run from the fresh state `exFresh`: the
unregistered sounds 5 and 6 start playing, then `play` on sound 2 raises. -/
theorem no_victim_raises_witness :
    (exOrphan.sounds 2).audio = none ∧ (exOrphan.sounds 2).tags = some [0, 1] ∧
    (∀ k, k ∈ [0, 1] → (exOrphan.audioTags k).used = true) ∧
    exOrphan.manager.override = true ∧ otherSounds exOrphan 2 = [] ∧
    play exOrphan 2 "" exConfig 50 = none ∧ resume exOrphan 2 50 = none ∧
    (run exFresh [Call.play 5 "" exConfig 10, Call.play 6 "" exConfig 20]).isSome = true ∧
    (run exFresh [Call.play 5 "" exConfig 10, Call.play 6 "" exConfig 20,
      Call.play 2 "" exConfig 50]).isSome = false :=
  ⟨rfl, rfl, by decide, rfl, by decide,
    (no_victim_raises exOrphan 2 [0, 1] "" exConfig 50 rfl rfl rfl rfl (by decide) rfl
      (by decide)).1 rfl,
    (no_victim_raises exOrphan 2 [0, 1] "" exConfig 50 rfl rfl rfl rfl (by decide) rfl
      (by decide)).2 rfl rfl (by decide),
    by decide!, by decide!⟩

/-- C6. Effect of a successful preemption: when `pickAudioTag` preempts the first sound `v` of
the sorted candidates, the requesting sound holds the handle `v` held; `v` has no handle,
`startTime = 0`, `previousTime = 0` and is neither playing nor paused; no audio element
changes, so the used flag of the transferred handle stays true; every other candidate is
unchanged. -/
theorem preemption_effect (w : World) (i v : Nat) (rest ts : List Nat)
    (ha : (w.sounds i).audio = none) (ht : (w.sounds i).tags = some ts)
    (hu : ∀ k, k ∈ ts → (w.audioTags k).used = true)
    (hm : (w.sounds i).manager = true) (ho : w.manager.override = true)
    (hs : sortSounds (compareSounds w) (otherSounds w i) = v :: rest) :
    ∃ w1 h, pickAudioTag w i = some (w1, true) ∧
      (w.sounds v).audio = some h ∧ (w1.sounds i).audio = some h ∧
      (w1.sounds v).audio = none ∧ (w1.sounds v).startTime = 0 ∧
      (w1.sounds v).previousTime = 0 ∧
      (w1.sounds v).isPlaying = false ∧ (w1.sounds v).isPaused = false ∧
      w1.audioTags = w.audioTags ∧
      ((w.audioTags h).used = true → (w1.audioTags h).used = true) ∧
      (∀ j, j ∈ otherSounds w i → j ≠ v → w1.sounds j = w.sounds j) := by
  obtain ⟨w1, h1, hvi, hv, hi, hvv, hothers, hat, _, _⟩ :=
    pickAudioTag_preempt w i v rest ts ha ht hu hm ho hs
  have hvs := ((otherSounds_mem w i v).mp hv).2.2.2
  obtain ⟨h, hk⟩ := Option.isSome_iff_exists.mp hvs
  refine ⟨w1, h, h1, hk, by rw [hi, hk], by rw [hvv], by rw [hvv], by rw [hvv],
    by rw [hvv, reset_sounds_self], by rw [hvv, reset_sounds_self], hat,
    by rw [hat]; exact id, ?_⟩
  intro j hj hjv
  have hjs := ((otherSounds_mem w i j).mp hj).2.2.2
  have hji : j ≠ i := by
    rintro rfl
    rw [ha] at hjs; simp at hjs
  exact hothers j hji hjv

/-- The theorem of C6 at the three candidates of `exThree`: sound 3 takes handle 0 from
sound 0. -/
theorem preemption_effect_witness :
    (exThree.sounds 3).audio = none ∧ (exThree.sounds 3).tags = some [0, 1, 2] ∧
    (∀ k, k ∈ [0, 1, 2] → (exThree.audioTags k).used = true) ∧
    exThree.manager.override = true ∧
    sortSounds (compareSounds exThree) (otherSounds exThree 3) = [0, 2, 1] ∧
    ∃ w1, pickAudioTag exThree 3 = some (w1, true) ∧ (w1.sounds 3).audio = some 0 ∧
      (w1.sounds 0).audio = none ∧ (w1.sounds 0).isPlaying = false ∧
      (w1.audioTags 0).used = true ∧ w1.sounds 1 = exThree.sounds 1 ∧
      w1.sounds 2 = exThree.sounds 2 :=
  ⟨rfl, rfl, by decide, rfl, by decide!,
    let ⟨w1, h, h1, h2, h3, h4, _, _, h7, _, _, h10, h11⟩ :=
      preemption_effect exThree 3 0 [2, 1] [0, 1, 2] rfl rfl (by decide) rfl rfl (by decide!)
    have hh : h = 0 := by
      have : (exThree.sounds 0).audio = some 0 := rfl
      rw [this] at h2
      exact (Option.some.inj h2).symm
    ⟨w1, h1, by rw [h3, hh], h4, h7, by rw [← hh]; exact h10 (by rw [hh]; rfl),
      h11 1 (by decide) (by decide), h11 2 (by decide) (by decide)⟩⟩

/-- C7. Immediate versus armed start: for an unlocked sound whose base transition succeeds
(giving `w2`) and for which `pickAudioTag` then acquires a handle, `play` at clock time `T`
with pending seek `config.seek` and pending delay `config.delay` returns `true`, leaves the
sound playing on a handle `h` whose position and `previousTime` are `markerStart + seek`;
with delay 0 `startTime = 0` and the handle is started; with a positive delay
`startTime = T + 1000 * delay` and the handle is paused; `play` is emitted. -/
theorem play_immediate_or_armed (w w2 w3 : World) (i : Nat) (markerName : String)
    (config : SoundConfig) (T : ℚ)
    (hm : (w.sounds i).manager = true) (hl : w.manager.touchLocked = false)
    (hb : BaseSound.play w i markerName config = (w2, true))
    (hpick : pickAudioTag w2 i = some (w3, true)) :
    ∃ w4 h, play w i markerName config T = some (w4, true) ∧
      (w4.sounds i).audio = some h ∧
      (w4.sounds i).currentMarker = (w2.sounds i).currentMarker ∧
      (w4.audioTags h).currentTime = markerStart (w2.sounds i) + config.seek ∧
      (w4.sounds i).previousTime = markerStart (w2.sounds i) + config.seek ∧
      (w4.sounds i).isPlaying = true ∧ (w4.sounds i).isPaused = false ∧
      (config.delay = 0 → (w4.sounds i).startTime = 0 ∧ (w4.audioTags h).paused = false) ∧
      (0 < config.delay →
        (w4.sounds i).startTime = T + 1000 * config.delay ∧ (w4.audioTags h).paused = true) ∧
      w4.events = w3.events ++ [⟨"play", i, Value.undefined⟩] := by
  obtain ⟨mk, dur, hbp⟩ := basePlay_success w i markerName config (by rw [hb])
  rw [hb] at hbp
  simp only [Prod.mk.injEq, and_true] at hbp
  obtain ⟨h, hs3, _, _⟩ := pickAudioTag_true w2 w3 i hpick
  have e2 : w2.sounds i = { w.sounds i with
      currentMarker := mk, duration := dur, currentConfig := config,
      isPlaying := true, isPaused := false } := by
    rw [hbp]; simp
  obtain ⟨w4, h4, hs4, ha4, _, _, hev, _⟩ :=
    pickAndPlay_of_pick w2 w3 i h T hpick (by rw [hs3, e2]; exact hm) (by rw [hs3])
  refine ⟨w4.emit "play" i Value.undefined, h, ?_, ?_, ?_, ?_, ?_, ?_, ?_, ?_, ?_, ?_⟩
  · simp only [play, checkTouchLocked_unlocked w i _ _ _ T hm hl, hb, h4]
  · simp [hs4, hs3]
  · simp [hs4, hs3]
  · simp [hs4, ha4, hs3, e2, markerStart]
  · simp [hs4, hs3, e2, markerStart]
  · simp [hs4, hs3, e2]
  · simp [hs4, hs3, e2]
  · intro hd
    simp [hs4, ha4, hs3, e2, hd]
  · intro hd
    simp [hs4, ha4, hs3, e2, ne_of_gt hd, mul_comm]
  · simp [hev]

/-- The theorem of C7 at a concrete state: marker `m` (start 2), seek 1, at time 100, with
delay 0 and with delay 2. -/
theorem play_immediate_or_armed_witness :
    (∃ w4 h, play exWorld 0 "m" { exConfig with seek := 1 } 100 = some (w4, true) ∧
      (w4.sounds 0).audio = some h ∧ (w4.audioTags h).currentTime = 3 ∧
      (w4.sounds 0).startTime = 0 ∧ (w4.audioTags h).paused = false) ∧
    (∃ w4 h, play exWorld 0 "m" { exConfig with seek := 1, delay := 2 } 100 = some (w4, true) ∧
      (w4.sounds 0).audio = some h ∧ (w4.audioTags h).currentTime = 3 ∧
      (w4.sounds 0).startTime = 2100 ∧ (w4.audioTags h).paused = true) :=
  ⟨let ⟨w4, h, h1, h2, _, h3, _, _, _, h7, _, _⟩ :=
      play_immediate_or_armed exWorld _ _ 0 "m" { exConfig with seek := 1 } 100 rfl rfl rfl rfl;
    ⟨w4, h, h1, h2, (by rw [h3]; decide!), (h7 rfl).1, (h7 rfl).2⟩,
   let ⟨w4, h, h1, h2, _, h3, _, _, _, _, h8, _⟩ :=
      play_immediate_or_armed exWorld _ _ 0 "m" { exConfig with seek := 1, delay := 2 } 100
        rfl rfl rfl rfl;
    ⟨w4, h, h1, h2, (by rw [h3]; decide!), (by rw [(h8 (by decide)).1]; decide!),
      (h8 (by decide)).2⟩⟩

/-- C8, the claim as stated fails at the boundary: the start is armed at 2100, the tolerance
is 40, and the tick at 2140 has passed the start by exactly the tolerance
(`now - startTime ≥ audioPlayDelay`); `update` leaves the world unchanged: `startTime` is
still armed and the handle still paused. -/
theorem delayed_start_boundary_tick :
    (exArmed.sounds 0).isPlaying = true ∧ (exArmed.sounds 0).startTime = 2100 ∧
    exArmed.manager.audioPlayDelay = 40 ∧
    (2140 : ℚ) - (exArmed.sounds 0).startTime ≥ exArmed.manager.audioPlayDelay ∧
    update exArmed 0 2140 = some exArmed ∧
    ∃ w1, update exArmed 0 2140 = some w1 ∧ (w1.sounds 0).startTime ≠ 0 ∧
      (w1.audioTags 0).paused = true := by
  have h : update exArmed 0 2140 = some exArmed := by
    simp [update, exArmed, exSound, exWorld, exManager]
    norm_num
  exact ⟨rfl, rfl, rfl, by decide!, h, exArmed, h, by decide!, rfl⟩

/-- C8, amended. Delayed-start tick: for a playing sound with `startTime > 0` on handle `h`,
if the tick time has passed `startTime` by more than the tolerance
(`startTime < now - audioPlayDelay`), `update` advances the handle by
`max 0 (now - startTime) / 1000`, which is `(now - startTime) / 1000` for a tolerance that
is not negative, sets `startTime = 0`, sets `previousTime` to the new position and starts
the handle; otherwise `update` returns the world unchanged. -/
theorem delayed_start_tick (w : World) (i h : Nat) (now : ℚ)
    (hp : (w.sounds i).isPlaying = true) (hs : (w.sounds i).startTime > 0)
    (hm : (w.sounds i).manager = true) (ha : (w.sounds i).audio = some h) :
    ((w.sounds i).startTime < now - w.manager.audioPlayDelay →
      ∃ w1, update w i now = some w1 ∧
        (w1.audioTags h).currentTime =
          (w.audioTags h).currentTime + max 0 (now - (w.sounds i).startTime) / 1000 ∧
        (0 ≤ w.manager.audioPlayDelay →
          (w1.audioTags h).currentTime =
            (w.audioTags h).currentTime + (now - (w.sounds i).startTime) / 1000) ∧
        (w1.sounds i).startTime = 0 ∧
        (w1.sounds i).previousTime = (w1.audioTags h).currentTime ∧
        (w1.audioTags h).paused = false ∧ (w1.sounds i).audio = some h ∧
        (w1.sounds i).isPlaying = true ∧ w1.events = w.events) ∧
    (now - w.manager.audioPlayDelay ≤ (w.sounds i).startTime → update w i now = some w) := by
  constructor
  · intro hlt
    simp only [update, hp, hs, hm, hlt, if_true, ha]
    refine ⟨_, rfl, by simp [World.audioPlay], ?_, by simp [World.audioPlay],
      by simp [World.audioPlay], by simp [World.audioPlay], by simp [World.audioPlay, ha],
      by simp [World.audioPlay, hp], by simp [World.audioPlay]⟩
    intro h0
    have : 0 ≤ now - (w.sounds i).startTime := by linarith
    simp [World.audioPlay, max_eq_right this]
  · intro hge
    simp [update, hp, hs, hm, not_lt.mpr hge]

/-- The amended C8 at a concrete state: armed at 2100 with tolerance 40, the tick at 1100
changes nothing, the tick at 2150 clears `startTime` and advances the position by 0.05. -/
theorem delayed_start_tick_witness :
    (exArmed.sounds 0).isPlaying = true ∧ (exArmed.sounds 0).startTime = 2100 ∧
    exArmed.manager.audioPlayDelay = 40 ∧
    update exArmed 0 1100 = some exArmed ∧
    ∃ w1, update exArmed 0 2150 = some w1 ∧
      (w1.audioTags 0).currentTime = (exArmed.audioTags 0).currentTime + 50 / 1000 ∧
      (w1.sounds 0).startTime = 0 ∧ (w1.audioTags 0).paused = false :=
  ⟨rfl, rfl, rfl,
    (delayed_start_tick exArmed 0 0 1100 rfl (by decide) rfl rfl).2 (by decide!),
    let ⟨w1, h1, _, h3, h4, _, h6, _⟩ :=
      (delayed_start_tick exArmed 0 0 2150 rfl (by decide) rfl rfl).1 (by decide!);
    ⟨w1, h1, (by rw [h3 (by decide)]; decide!), h4, h6⟩⟩

/-- C9. Loop wrap-around tick: for a playing looping sound with `startTime = 0` on handle `h`
at position `pos`, with `start = markerStart` and `end = start + duration`, `update` sets the
position to `start + max 0 (pos - end)` if `pos ≥ end - loopEndOffset`, to `pos + start` if
otherwise `pos < start`, and leaves it otherwise; it emits exactly one `looped` if the
adjusted position is less than `previousTime` and nothing otherwise; and it sets
`previousTime` to the adjusted position. -/
theorem loop_tick (w : World) (i h : Nat) (now : ℚ)
    (hp : (w.sounds i).isPlaying = true) (hs : (w.sounds i).startTime = 0)
    (hl : (w.sounds i).currentConfig.loop = true)
    (hm : (w.sounds i).manager = true) (ha : (w.sounds i).audio = some h) :
    ∃ w1, update w i now = some w1 ∧
      (w1.audioTags h).currentTime =
        (if (w.audioTags h).currentTime ≥
            markerStart (w.sounds i) + (w.sounds i).duration - w.manager.loopEndOffset then
          markerStart (w.sounds i) +
            max 0 ((w.audioTags h).currentTime -
              (markerStart (w.sounds i) + (w.sounds i).duration))
        else if (w.audioTags h).currentTime < markerStart (w.sounds i) then
          (w.audioTags h).currentTime + markerStart (w.sounds i)
        else (w.audioTags h).currentTime) ∧
      w1.events =
        (if (w1.audioTags h).currentTime < (w.sounds i).previousTime then
          w.events ++ [⟨"looped", i, Value.undefined⟩]
        else w.events) ∧
      (w1.sounds i).previousTime = (w1.audioTags h).currentTime ∧
      (w1.sounds i).audio = some h ∧ (w1.sounds i).isPlaying = true := by
  have hs2 : ¬ (w.sounds i).startTime > 0 := by rw [hs]; exact lt_irrefl 0
  simp only [update, hp, hs2, hl, hm, if_true, if_false, ha]
  refine ⟨_, rfl, ?_, ?_, ?_, ?_, ?_⟩
  · split_ifs <;> simp
  · split_ifs <;> simp_all <;> linarith
  · split_ifs <;> simp
  · split_ifs <;> simp [ha]
  · split_ifs <;> simp [hp]

/-- The theorem of C9 at the example of the spec: marker `[0, 5)`, `loopEndOffset = 0.1`,
`previousTime = 4.9`; the tick at position 4.95 wraps to 0 and emits one `looped`; the
following tick at position 0.02, with `previousTime = 0`, emits nothing. -/
theorem loop_tick_witness :
    ((exLooping (99 / 20) (49 / 10)).sounds 0).currentConfig.loop = true ∧
    markerStart ((exLooping (99 / 20) (49 / 10)).sounds 0) = 0 ∧
    ((exLooping (99 / 20) (49 / 10)).sounds 0).duration = 5 ∧
    (exLooping (99 / 20) (49 / 10)).manager.loopEndOffset = 1 / 10 ∧
    (∃ w1, update (exLooping (99 / 20) (49 / 10)) 0 16 = some w1 ∧
      (w1.audioTags 0).currentTime = 0 ∧
      w1.events = [⟨"looped", 0, Value.undefined⟩] ∧ (w1.sounds 0).previousTime = 0) ∧
    (∃ w1, update (exLooping (1 / 50) 0) 0 32 = some w1 ∧
      (w1.audioTags 0).currentTime = 1 / 50 ∧
      w1.events = [] ∧ (w1.sounds 0).previousTime = 1 / 50) :=
  ⟨rfl, rfl, rfl, rfl,
    let ⟨w1, h1, h2, h3, h4, _⟩ :=
      loop_tick (exLooping (99 / 20) (49 / 10)) 0 0 16 rfl rfl rfl rfl rfl;
    have e : (w1.audioTags 0).currentTime = 0 := by rw [h2]; decide!
    ⟨w1, h1, e, (by rw [h3, e]; decide!), (by rw [h4, e])⟩,
    let ⟨w1, h1, h2, h3, h4, _⟩ :=
      loop_tick (exLooping (1 / 50) 0) 0 0 32 rfl rfl rfl rfl rfl;
    have e : (w1.audioTags 0).currentTime = 1 / 50 := by rw [h2]; decide!
    ⟨w1, h1, e, (by rw [h3, e]; decide!), (by rw [h4, e])⟩⟩

/-- C10. Natural end: for a playing sound that does not loop, with `startTime = 0`, on handle
`h`: if the position is at least `markerStart + duration`, one `update` leaves the sound
Idle, the handle paused and free at its position, the sound without handle and with
`startTime = 0` and `previousTime = 0`, and appends exactly the notification `ended`; if the
position is below `markerStart + duration`, the only change is that `previousTime` becomes
the observed position. -/
theorem natural_end_tick (w : World) (i h : Nat) (now : ℚ)
    (hp : (w.sounds i).isPlaying = true) (hs : (w.sounds i).startTime = 0)
    (hl : (w.sounds i).currentConfig.loop = false) (ha : (w.sounds i).audio = some h) :
    ((w.audioTags h).currentTime ≥ markerStart (w.sounds i) + (w.sounds i).duration →
      ∃ w1, update w i now = some w1 ∧
        (w1.sounds i).isPlaying = false ∧ (w1.sounds i).isPaused = false ∧
        (w1.audioTags h).paused = true ∧ (w1.audioTags h).used = false ∧
        (w1.audioTags h).currentTime = (w.audioTags h).currentTime ∧
        (w1.sounds i).audio = none ∧ (w1.sounds i).startTime = 0 ∧
        (w1.sounds i).previousTime = 0 ∧
        w1.events = w.events ++ [⟨"ended", i, Value.undefined⟩]) ∧
    ((w.audioTags h).currentTime < markerStart (w.sounds i) + (w.sounds i).duration →
      update w i now =
        some (w.setSound i { w.sounds i with previousTime := (w.audioTags h).currentTime })) := by
  have hs2 : ¬ (w.sounds i).startTime > 0 := by rw [hs]; exact lt_irrefl 0
  constructor
  · intro hge
    simp only [update, hp, hs2, hl, if_true, if_false, ha, hge, Bool.false_eq_true]
    rw [stopAndRelease_eq _ i h (by rw [reset_sounds_self]; exact ha)]
    refine ⟨_, rfl, ?_, ?_, ?_, ?_, ?_, ?_, ?_, ?_, ?_⟩ <;> simp [reset_sounds_self]
  · intro hlt
    simp [update, hp, hs2, hl, ha, not_le.mpr hlt]

/-- The theorem of C10 at a concrete state: an asset of length 10 at position 10 ends, at
position 3 it goes on. -/
theorem natural_end_tick_witness :
    ((exPlaying 10).sounds 0).isPlaying = true ∧ ((exPlaying 10).sounds 0).startTime = 0 ∧
    ((exPlaying 10).sounds 0).currentConfig.loop = false ∧
    ((exPlaying 10).sounds 0).audio = some 0 ∧
    (∃ w1, update (exPlaying 10) 0 16 = some w1 ∧ (w1.sounds 0).isPlaying = false ∧
      (w1.audioTags 0).used = false ∧ (w1.sounds 0).audio = none ∧
      w1.events = [⟨"ended", 0, Value.undefined⟩]) ∧
    update (exPlaying 3) 0 16 =
      some ((exPlaying 3).setSound 0 { (exPlaying 3).sounds 0 with previousTime := 3 }) :=
  ⟨rfl, rfl, rfl, rfl,
    let ⟨w1, h1, h2, _, _, h5, _, h7, _, _, h10⟩ :=
      (natural_end_tick (exPlaying 10) 0 0 16 rfl rfl rfl rfl).1 (by decide!);
    ⟨w1, h1, h2, h5, h7, h10⟩,
    (natural_end_tick (exPlaying 3) 0 0 16 rfl rfl rfl rfl).2 (by decide!)⟩

/-- C11. Invalid-state pause: on an unlocked sound whose delayed start is armed
(`startTime > 0`), `pause` returns `false` and the world it returns is the world it was given:
no notification, no change of `isPlaying`/`isPaused`, of the pending seek, of the handle or
of its flags, of `startTime` or of `previousTime`. -/
theorem pause_rejected_while_armed (w : World) (i : Nat) (now : ℚ)
    (hm : (w.sounds i).manager = true) (hl : w.manager.touchLocked = false)
    (hs : (w.sounds i).startTime > 0) :
    pause w i now = some (w, false) := by
  simp [pause, checkTouchLocked_unlocked w i _ _ _ now hm hl, hs]

/-- The theorem of C11 at a concrete state. -/
theorem pause_rejected_while_armed_witness :
    (exArmed.sounds 0).manager = true ∧ exArmed.manager.touchLocked = false ∧
    (exArmed.sounds 0).startTime > 0 ∧ pause exArmed 0 1000 = some (exArmed, false) :=
  ⟨rfl, rfl, by decide, pause_rejected_while_armed exArmed 0 1000 rfl rfl (by decide)⟩

/-- C12. Stop cancels a delayed start: on an unlocked playing sound with `startTime > 0`
that holds handle `h`, `stop` returns `true`, emits `stop`, leaves the handle free and paused,
the sound without a handle and with `startTime = 0`; afterwards every `update`, at any time
and any number of times, returns the same world, so the released handle is never started. -/
theorem stop_cancels_delayed_start (w : World) (i h : Nat) (now : ℚ)
    (hm : (w.sounds i).manager = true) (hl : w.manager.touchLocked = false)
    (hp : (w.sounds i).isPlaying = true) (hs : (w.sounds i).startTime > 0)
    (ha : (w.sounds i).audio = some h) :
    ∃ w1, stop w i now = some (w1, true) ∧
      w1.events = w.events ++ [⟨"stop", i, Value.undefined⟩] ∧
      (w1.audioTags h).used = false ∧ (w1.audioTags h).paused = true ∧
      (w1.sounds i).audio = none ∧ (w1.sounds i).startTime = 0 ∧
      (w1.sounds i).isPlaying = false ∧ (w1.sounds i).isPaused = false ∧
      (∀ t, update w1 i t = some w1) ∧ (∀ ts, updates w1 i ts = some w1) := by
  have hstop : BaseSound.stop w i =
      (BaseSound.resetConfig (w.setSound i { w.sounds i with isPlaying := false, isPaused := false }) i, true) := by
    simp [BaseSound.stop, hp]
  have hrel := stopAndRelease_eq
    (BaseSound.resetConfig (w.setSound i { w.sounds i with isPlaying := false, isPaused := false }) i) i h
    (by simp [BaseSound.resetConfig, ha])
  simp only [stop, checkTouchLocked_unlocked w i _ _ _ now hm hl, hstop, hrel]
  refine ⟨_, rfl, ?_, ?_, ?_, ?_, ?_, ?_, ?_, ?_, ?_⟩
  all_goals first
    | (intro t; apply update_not_playing; simp [BaseSound.resetConfig])
    | (intro ts; apply updates_not_playing; simp [BaseSound.resetConfig])
    | simp [BaseSound.resetConfig]

/-- The theorem of C12 at a concrete state. -/
theorem stop_cancels_delayed_start_witness :
    (exArmed.sounds 0).isPlaying = true ∧ (exArmed.sounds 0).startTime > 0 ∧
    (exArmed.sounds 0).audio = some 0 ∧
    ∃ w1, stop exArmed 0 1000 = some (w1, true) ∧ (w1.audioTags 0).used = false ∧
      (w1.sounds 0).startTime = 0 ∧ updates w1 0 [1500, 2200, 3000] = some w1 :=
  ⟨rfl, by decide, rfl,
    let ⟨w1, h1, _, h3, _, _, h6, _, _, _, h10⟩ :=
      stop_cancels_delayed_start exArmed 0 0 1000 rfl rfl rfl (by decide) rfl
    ⟨w1, h1, h3, h6, h10 _⟩⟩

/-- C13. Stop from Paused raises: an unlocked playing sound is paused with success, so it is
Paused and holds no handle, and the base stop transition would succeed; the following `stop`
does not return: `stopAndReleaseAudioTag` reads `this.audio.pause` on `null`. -/
theorem stop_from_paused_raises (w : World) (i h : Nat) (now now2 : ℚ)
    (hm : (w.sounds i).manager = true) (hl : w.manager.touchLocked = false)
    (hp : (w.sounds i).isPlaying = true) (hq : (w.sounds i).isPaused = false)
    (hs : (w.sounds i).startTime ≤ 0) (ha : (w.sounds i).audio = some h) :
    ∃ w1, pause w i now = some (w1, true) ∧
      (w1.sounds i).isPaused = true ∧ (w1.sounds i).isPlaying = false ∧
      (w1.sounds i).audio = none ∧ (BaseSound.stop w1 i).2 = true ∧
      stop w1 i now2 = none := by
  rw [pause_eq w i h now hm hl hp hq hs ha]
  refine ⟨_, rfl, by simp, by simp, by simp, by simp [BaseSound.stop], ?_⟩
  rw [stop, checkTouchLocked_unlocked _ i _ _ _ now2 (by simp [hm]) (by simp [hl])]
  simp [BaseSound.stop, BaseSound.resetConfig, stopAndReleaseAudioTag]

/-- The theorem of C13 at a concrete state. -/
theorem stop_from_paused_raises_witness :
    ((exPlaying 3).sounds 0).isPlaying = true ∧ ((exPlaying 3).sounds 0).audio = some 0 ∧
    ∃ w1, pause (exPlaying 3) 0 100 = some (w1, true) ∧ (w1.sounds 0).isPaused = true ∧
      stop w1 0 200 = none :=
  ⟨rfl, rfl,
    let ⟨w1, h1, h2, _, _, _, h6⟩ :=
      stop_from_paused_raises (exPlaying 3) 0 0 100 200 rfl rfl rfl rfl (by decide) rfl
    ⟨w1, h1, h2, h6⟩⟩

/-- C14. Locked method calls are deferred: while the manager is locked and the queue of the
sound exists, each of `play`, `pause`, `resume`, `stop` returns `false`, and the world it
returns differs from the one it was given only in the queue of that sound, which has the
action `(this sound, 'method', name, value, now)` appended after the earlier entries. -/
theorem locked_methods_are_queued (w : World) (i : Nat) (q : List Action) (now : ℚ)
    (markerName : String) (config : SoundConfig)
    (hm : (w.sounds i).manager = true) (hl : w.manager.touchLocked = true)
    (hq : (w.sounds i).touchLockedActionQueue = some q) :
    play w i markerName config now =
        some (w.setSound i { w.sounds i with touchLockedActionQueue :=
          (some (q ++ [⟨i, "method", "play", Value.playArgs markerName config, now⟩])) }, false) ∧
    pause w i now =
        some (w.setSound i { w.sounds i with touchLockedActionQueue :=
          (some (q ++ [⟨i, "method", "pause", Value.undefined, now⟩])) }, false) ∧
    resume w i now =
        some (w.setSound i { w.sounds i with touchLockedActionQueue :=
          (some (q ++ [⟨i, "method", "resume", Value.undefined, now⟩])) }, false) ∧
    stop w i now =
        some (w.setSound i { w.sounds i with touchLockedActionQueue :=
          (some (q ++ [⟨i, "method", "stop", Value.undefined, now⟩])) }, false) := by
  refine ⟨?_, ?_, ?_, ?_⟩ <;> simp [play, pause, resume, stop, checkTouchLocked, hm, hl, hq]

/-- The theorem of C14 at a concrete state. -/
theorem locked_methods_are_queued_witness :
    (exLocked.sounds 0).manager = true ∧ exLocked.manager.touchLocked = true ∧
    (exLocked.sounds 0).touchLockedActionQueue =
      some [⟨0, "method", "play", Value.undefined, 1⟩] ∧
    pause exLocked 0 7 =
      some (exLocked.setSound 0 { exLocked.sounds 0 with touchLockedActionQueue :=
        (some ([⟨0, "method", "play", Value.undefined, 1⟩] ++
          [⟨0, "method", "pause", Value.undefined, 7⟩])) }, false) :=
  ⟨rfl, rfl, rfl,
    (locked_methods_are_queued exLocked 0 _ 7 "" exConfig rfl rfl rfl).2.1⟩

/-- C15. Locked property writes: while the manager is locked and the queue of the sound
exists, a write of `mute`, `volume`, `rate` or `detune` returns a world that differs from the
one it was given only in sound `i`: the stored configuration field holds the value and the
queue has the action `(this sound, 'property', name, value, now)` appended. No audio element
and no notification changes. -/
theorem locked_property_writes (w : World) (i : Nat) (q : List Action) (now : ℚ)
    (b : Bool) (v : ℚ)
    (hm : (w.sounds i).manager = true) (hl : w.manager.touchLocked = true)
    (hq : (w.sounds i).touchLockedActionQueue = some q) :
    setMuteProp w i b now =
        some (w.setSound i { w.sounds i with
          currentConfig := { (w.sounds i).currentConfig with mute := b },
          touchLockedActionQueue :=
            (some (q ++ [⟨i, "property", "mute", Value.bool b, now⟩])) }) ∧
    setVolumeProp w i v now =
        some (w.setSound i { w.sounds i with
          currentConfig := { (w.sounds i).currentConfig with volume := v },
          touchLockedActionQueue :=
            (some (q ++ [⟨i, "property", "volume", Value.num v, now⟩])) }) ∧
    setRateProp w i v now =
        some (w.setSound i { w.sounds i with
          currentConfig := { (w.sounds i).currentConfig with rate := v },
          touchLockedActionQueue :=
            (some (q ++ [⟨i, "property", "rate", Value.num v, now⟩])) }) ∧
    setDetuneProp w i v now =
        some (w.setSound i { w.sounds i with
          currentConfig := { (w.sounds i).currentConfig with detune := v },
          touchLockedActionQueue :=
            (some (q ++ [⟨i, "property", "detune", Value.num v, now⟩])) }) := by
  refine ⟨?_, ?_, ?_, ?_⟩ <;>
    simp [setMuteProp, setVolumeProp, setRateProp, setDetuneProp, checkTouchLocked, hm, hl, hq,
      World.setSound]

/-- The theorem of C15 at a concrete state. -/
theorem locked_property_writes_witness :
    (exLocked.sounds 0).manager = true ∧ exLocked.manager.touchLocked = true ∧
    (exLocked.sounds 0).touchLockedActionQueue =
      some [⟨0, "method", "play", Value.undefined, 1⟩] ∧
    setVolumeProp exLocked 0 (1 / 2) 7 =
      some (exLocked.setSound 0 { exLocked.sounds 0 with
        currentConfig := { (exLocked.sounds 0).currentConfig with volume := 1 / 2 },
        touchLockedActionQueue :=
          (some ([⟨0, "method", "play", Value.undefined, 1⟩] ++
            [⟨0, "property", "volume", Value.num (1 / 2), 7⟩])) }) :=
  ⟨rfl, rfl, rfl,
    (locked_property_writes exLocked 0 _ 7 false (1 / 2) rfl rfl rfl).2.1⟩

/-- C16. Suspension round trip: for a sound that holds handle `h` at position `p` with
`startTime = S`, `onBlur` at clock time `t1` frees the handle, clears `audio` and `startTime`,
and stores `seek = p - markerStart` and `delay = max 0 ((S - t1) / 1000)`; a following
`onFocus` at `t2`, when the list of the key holds a free handle, binds a handle of the list,
positions it at `p`, and either arms `startTime = t2 + 1000 * delay` with the handle paused
(`delay > 0`) or starts the handle with `startTime = 0` (`delay = 0`). -/
theorem suspension_round_trip (w : World) (i h : Nat) (ts : List Nat) (p S t1 t2 : ℚ)
    (hm : (w.sounds i).manager = true) (ha : (w.sounds i).audio = some h)
    (hp : (w.audioTags h).currentTime = p) (hS : (w.sounds i).startTime = S)
    (ht : (w.sounds i).tags = some ts)
    (hfree : ∃ k, k ∈ ts ∧ (k = h ∨ (w.audioTags k).used = false)) :
    ∃ w1, onBlur w i t1 = some w1 ∧
      (w1.audioTags h).used = false ∧ (w1.sounds i).audio = none ∧
      (w1.sounds i).startTime = 0 ∧
      (w1.sounds i).currentConfig.seek = p - markerStart (w.sounds i) ∧
      (w1.sounds i).currentConfig.delay = max 0 ((S - t1) / 1000) ∧
      ∃ w2 h2, onFocus w1 i t2 = some w2 ∧ h2 ∈ ts ∧
        (w2.sounds i).audio = some h2 ∧ (w2.audioTags h2).used = true ∧
        (w2.audioTags h2).currentTime = p ∧ (w2.sounds i).isPlaying = true ∧
        (0 < max 0 ((S - t1) / 1000) →
          (w2.sounds i).startTime = t2 + 1000 * max 0 ((S - t1) / 1000) ∧
          (w2.audioTags h2).paused = true) ∧
        (max 0 ((S - t1) / 1000) = 0 →
          (w2.sounds i).startTime = 0 ∧ (w2.audioTags h2).paused = false) := by
  rw [onBlur_eq w i h t1 ha]
  refine ⟨_, rfl, by simp, by simp, by simp, by simp [hp], by simp [hS], ?_⟩
  generalize hw1 : ((w.setAudio h { w.audioTags h with paused := true, used := false }).setSound i
        { w.sounds i with
          isPlaying := false, isPaused := true, audio := none, startTime := 0, previousTime := 0,
          currentConfig := { (w.sounds i).currentConfig with
            seek := (w.audioTags h).currentTime - markerStart (w.sounds i),
            delay := max 0 (((w.sounds i).startTime - t1) / 1000) } }) = w1
  have e1 : w1.sounds i = { w.sounds i with
          isPlaying := false, isPaused := true, audio := none, startTime := 0, previousTime := 0,
          currentConfig := { (w.sounds i).currentConfig with
            seek := (w.audioTags h).currentTime - markerStart (w.sounds i),
            delay := max 0 (((w.sounds i).startTime - t1) / 1000) } } := by
    rw [← hw1]; simp
  have e2 : ∀ k, (w1.audioTags k).used = if k = h then false else (w.audioTags k).used := by
    intro k; rw [← hw1]; by_cases hk : k = h <;> simp [hk]
  obtain ⟨k, hk, hkf⟩ := hfree
  have hfree1 : ∃ k, k ∈ ts ∧
      (((w1.setSound i { w1.sounds i with isPlaying := true }).setSound i
        { (w1.setSound i { w1.sounds i with isPlaying := true }).sounds i with
          isPaused := false }).audioTags k).used = false := by
    refine ⟨k, hk, ?_⟩
    simp only [setSound_audioTags, e2]
    rcases hkf with hkh | hku
    · simp [hkh]
    · simp [hku]
  obtain ⟨w2, h2, hres, hmem, _, _, hs, hat, _, _, _, _⟩ :=
    pickAndPlay_free _ i ts t2 (by simp [e1, hm]) (by simp [e1]) (by simp [e1, ht]) hfree1
  refine ⟨w2, h2, ?_, hmem, ?_, ?_, ?_, ?_, ?_, ?_⟩
  · simp only [onFocus, hres]
  · rw [hs]
  · rw [hat]
  · rw [hat]; simp [e1, markerStart, hp]
  · rw [hs]; simp [e1]
  · intro hr
    rw [hs, hat]
    simp [e1, hS, ne_of_gt hr, mul_comm]
  · intro hr
    rw [hs, hat]
    simp [e1, hS, hr]

/-- The theorem of C16 at a concrete state. -/
theorem suspension_round_trip_witness :
    (exArmed.sounds 0).audio = some 0 ∧ (exArmed.sounds 0).tags = some [0, 1] ∧
    ∃ w1, onBlur exArmed 0 1100 = some w1 ∧ (w1.sounds 0).currentConfig.delay = 1 ∧
      ∃ w2 h2, onFocus w1 0 5000 = some w2 ∧ (w2.sounds 0).audio = some h2 ∧
        (w2.sounds 0).startTime = 6000 ∧ (w2.audioTags h2).paused = true :=
  ⟨rfl, rfl,
    let ⟨w1, h1, _, _, _, _, h6, w2, h2, k1, _, k3, _, _, _, k7, _⟩ :=
      suspension_round_trip exArmed 0 0 [0, 1] 0 2100 1100 5000 rfl rfl rfl rfl rfl
        ⟨0, by decide, Or.inl rfl⟩
    ⟨w1, h1, by rw [h6]; norm_num, w2, h2, k1, k3,
      by rw [(k7 (by norm_num)).1]; norm_num, (k7 (by norm_num)).2⟩⟩

/-- C17. Delayed-start invariant: from a state in which every handle is free, no sound holds
a handle and every `startTime` is 0, after any sequence of `play`, `pause`, `resume`, `stop`,
`update`, `onBlur`, `onFocus`, `destroy` calls and `seek` writes in which no call raises,
every sound with `startTime > 0` holds a handle and that handle is paused. -/
theorem delayed_start_invariant (w0 w : World) (calls : List Call)
    (hfree : ∀ h, (w0.audioTags h).used = false)
    (hnone : ∀ i, (w0.sounds i).audio = none)
    (hstart : ∀ i, (w0.sounds i).startTime = 0)
    (hrun : run w0 calls = some w) :
    ∀ i, (w.sounds i).startTime > 0 →
      ∃ h, (w.sounds i).audio = some h ∧ (w.audioTags h).paused = true := by
  have ha0 : Armed w0 := by
    intro i hi
    rw [hstart] at hi
    exact absurd hi (lt_irrefl 0)
  exact (moves_run calls w0 w hrun).armed_run (pool_of_fresh w0 hfree hnone) ha0

/-- The theorem of C17 at the first eleven calls of `exCalls`, after which the sounds 0
and 1 are both armed. -/
theorem delayed_start_invariant_witness :
    (∀ h, (exFresh.audioTags h).used = false) ∧ (∀ i, (exFresh.sounds i).audio = none) ∧
    (∀ i, (exFresh.sounds i).startTime = 0) ∧
    (run exFresh (exCalls.take 11)).map (fun w => (w.sounds 1).startTime) = some 2700 ∧
    ∃ w, run exFresh (exCalls.take 11) = some w ∧
      ∀ i, (w.sounds i).startTime > 0 →
        ∃ h, (w.sounds i).audio = some h ∧ (w.audioTags h).paused = true :=
  ⟨fun _ => rfl, fun _ => rfl, fun _ => rfl, by decide!,
    let ⟨w, hw⟩ := Option.isSome_iff_exists.mp
      (show (run exFresh (exCalls.take 11)).isSome = true by decide!);
    ⟨w, hw, delayed_start_invariant exFresh w (exCalls.take 11) (fun _ => rfl) (fun _ => rfl)
      (fun _ => rfl) hw⟩⟩

/-- C18. After a configuration error: constructing a sound for a key without cache entry
writes one line with `console.error` and touches no audio element; on that object `play`,
`pause`, `resume` and `stop` raise a `TypeError` (`this.manager` is `undefined`), and `update`
returns the world unchanged. -/
theorem calls_after_configuration_error (w : World) (i : Nat) (key : String)
    (config : SoundConfig) (markers : List SoundMarker) (hc : w.cache key = none) :
    ∃ w1, construct w i key config markers = some w1 ∧
      w1.console = w.console ++ ["No audio loaded in cache with key: " ++ key] ∧
      w1.audioTags = w.audioTags ∧
      (∀ m c now, play w1 i m c now = none) ∧ (∀ now, pause w1 i now = none) ∧
      (∀ now, resume w1 i now = none) ∧ (∀ now, stop w1 i now = none) ∧
      (∀ t, update w1 i t = some w1) := by
  simp only [construct, hc]
  refine ⟨_, rfl, ?_, ?_, ?_, ?_, ?_, ?_, ?_⟩
  · simp
  · simp
  · intro m c now; simp [play, checkTouchLocked, blankSound]
  · intro now; simp [pause, checkTouchLocked, blankSound]
  · intro now; simp [resume, checkTouchLocked, blankSound]
  · intro now; simp [stop, checkTouchLocked, blankSound]
  · intro t; simp [update, blankSound]

/-- The theorem of C18 at a concrete state. -/
theorem calls_after_configuration_error_witness :
    exWorld.cache "missing" = none ∧
    ∃ w1, construct exWorld 3 "missing" exConfig [] = some w1 ∧
      play w1 3 "" exConfig 100 = none ∧ update w1 3 100 = some w1 :=
  ⟨by decide,
    let ⟨w1, h1, _, _, h4, _, _, _, h8⟩ :=
      calls_after_configuration_error exWorld 3 "missing" exConfig [] (by decide)
    ⟨w1, h1, h4 _ _ _, h8 _⟩⟩

/-- C19. Seek write and read with a marker: sound 0 plays the marker `[2, 7)` with
`startTime = 0`; writing `seek = 3` (already within `[0, duration]`) emits one `seek`
notification carrying 3, and the following read of `seek` returns 1, not 3. -/
theorem seek_write_read_with_marker :
    (exMarked.sounds 0).isPlaying = true ∧ (exMarked.sounds 0).startTime = 0 ∧
    markerStart (exMarked.sounds 0) = 2 ∧ (exMarked.sounds 0).duration = 5 ∧
    ∃ w1, setSeek exMarked 0 3 = some w1 ∧
      w1.events = exMarked.events ++ [⟨"seek", 0, Value.num 3⟩] ∧
      getSeek w1 0 = some 1 ∧ min (max 0 3) (exMarked.sounds 0).duration = (3 : ℚ) := by
  refine ⟨rfl, rfl, rfl, rfl, _, rfl, ?_, ?_, ?_⟩
  · decide!
  · decide!
  · decide!

/-- C20. Pause/resume round trip: for an unlocked playing sound with `startTime = 0` on handle
`h` at position `p`, `pause` returns `true`, stores `seek = p - markerStart`, leaves the
handle paused and free, the sound without handle and with `previousTime = 0`, and emits
`pause`; a following `resume`, with a free handle in the list of the key and pending delay 0,
returns `true`, binds a handle, sets its position and `previousTime` to `p`, starts it with
`startTime = 0`, and emits `resume`. -/
theorem pause_resume_round_trip (w : World) (i h : Nat) (ts : List Nat) (p now now2 : ℚ)
    (hm : (w.sounds i).manager = true) (hl : w.manager.touchLocked = false)
    (hpl : (w.sounds i).isPlaying = true) (hq : (w.sounds i).isPaused = false)
    (hs : (w.sounds i).startTime = 0) (ha : (w.sounds i).audio = some h)
    (hp : (w.audioTags h).currentTime = p)
    (hd : (w.sounds i).currentConfig.delay = 0)
    (ht : (w.sounds i).tags = some ts)
    (hfree : ∃ k, k ∈ ts ∧ (k = h ∨ (w.audioTags k).used = false)) :
    ∃ w1, pause w i now = some (w1, true) ∧
      (w1.sounds i).currentConfig.seek = p - markerStart (w.sounds i) ∧
      (w1.audioTags h).paused = true ∧ (w1.audioTags h).used = false ∧
      (w1.sounds i).audio = none ∧ (w1.sounds i).previousTime = 0 ∧
      w1.events = w.events ++ [⟨"pause", i, Value.undefined⟩] ∧
      ∃ w2 h2, resume w1 i now2 = some (w2, true) ∧ h2 ∈ ts ∧
        (w2.sounds i).audio = some h2 ∧ (w2.audioTags h2).used = true ∧
        (w2.audioTags h2).currentTime = p ∧ (w2.sounds i).previousTime = p ∧
        (w2.audioTags h2).paused = false ∧ (w2.sounds i).startTime = 0 ∧
        (w2.sounds i).isPlaying = true ∧ (w2.sounds i).isPaused = false ∧
        w2.events = w1.events ++ [⟨"resume", i, Value.undefined⟩] := by
  rw [pause_eq w i h now hm hl hpl hq (le_of_eq hs) ha]
  refine ⟨_, rfl, by simp [hp], by simp, by simp, by simp, by simp, by simp, ?_⟩
  generalize hw1 : (((w.setAudio h { w.audioTags h with paused := true, used := false }).setSound i
        { w.sounds i with
          isPlaying := false, isPaused := true, audio := none, startTime := 0, previousTime := 0,
          currentConfig := { (w.sounds i).currentConfig with
            seek := (w.audioTags h).currentTime - markerStart (w.sounds i) } }).emit
        "pause" i Value.undefined) = w1
  have e1 : w1.sounds i = { w.sounds i with
          isPlaying := false, isPaused := true, audio := none, startTime := 0, previousTime := 0,
          currentConfig := { (w.sounds i).currentConfig with
            seek := (w.audioTags h).currentTime - markerStart (w.sounds i) } } := by
    rw [← hw1]; simp
  have e2 : ∀ k, (w1.audioTags k).used = if k = h then false else (w.audioTags k).used := by
    intro k; rw [← hw1]; by_cases hk : k = h <;> simp [hk]
  have e3 : w1.manager = w.manager := by rw [← hw1]; simp
  have hbase : BaseSound.resume w1 i =
      (w1.setSound i { w1.sounds i with isPlaying := true, isPaused := false }, true) := by
    simp [BaseSound.resume, e1]
  obtain ⟨k, hk, hkf⟩ := hfree
  have hfree1 : ∃ k, k ∈ ts ∧
      ((w1.setSound i { w1.sounds i with isPlaying := true, isPaused := false }).audioTags k).used
        = false := by
    refine ⟨k, hk, ?_⟩
    simp only [setSound_audioTags, e2]
    rcases hkf with hkh | hku
    · simp [hkh]
    · simp [hku]
  obtain ⟨w2, h2, hres, hmem, _, _, hso, hat, _, _, hev, _⟩ :=
    pickAndPlay_free _ i ts now2 (by simp [e1, hm]) (by simp [e1]) (by simp [e1, ht]) hfree1
  have hs1 : ¬ (w1.sounds i).startTime > 0 := by simp [e1]
  refine ⟨w2.emit "resume" i Value.undefined, h2, ?_, hmem, ?_, ?_, ?_, ?_, ?_, ?_, ?_, ?_, ?_⟩
  · simp only [resume, checkTouchLocked_unlocked w1 i _ _ _ now2 (by simp [e1, hm])
      (by simp [e3, hl]), hs1, if_false, hbase, hres]
  · simp [hso]
  · simp [hat]
  · simp [hat, e1, markerStart, hp]
  · simp [hso, e1, markerStart, hp]
  · simp [hat, e1, hd]
  · simp [hso, e1, hd]
  · simp [hso]
  · simp [hso]
  · simp [hev]

/-- The theorem of C20 at a concrete state. -/
theorem pause_resume_round_trip_witness :
    (exPlaying 3).manager.touchLocked = false ∧ ((exPlaying 3).sounds 0).isPlaying = true ∧
    ((exPlaying 3).sounds 0).startTime = 0 ∧ ((exPlaying 3).sounds 0).audio = some 0 ∧
    ((exPlaying 3).audioTags 0).currentTime = 3 ∧
    ∃ w1, pause (exPlaying 3) 0 100 = some (w1, true) ∧ (w1.sounds 0).audio = none ∧
      ∃ w2 h2, resume w1 0 200 = some (w2, true) ∧ (w2.sounds 0).audio = some h2 ∧
        (w2.audioTags h2).currentTime = 3 ∧ (w2.audioTags h2).paused = false :=
  ⟨rfl, rfl, rfl, rfl, rfl,
    let ⟨w1, h1, _, _, _, h5, _, _, w2, h2, k1, _, k3, _, k5, _, k7, _⟩ :=
      pause_resume_round_trip (exPlaying 3) 0 0 [0, 1] 3 100 200 rfl rfl rfl rfl rfl rfl rfl rfl
        rfl ⟨0, by decide, Or.inl rfl⟩
    ⟨w1, h1, h5, w2, h2, k1, k3, k5, k7⟩⟩

end HTML5Audio
